import Mathlib

/-!
# Tracking and experiment engine of the sales e-mail tool

A shallow embedding of `backend/routes/authRoutes.js` (with the schemas of
`backend/models/ABTest.js`): the two Mongo collections are lists of documents,
every route handler is a function from the database state and its request
to the new state and the response, a `Date` is its millisecond timestamp, and
each awaited database call takes a boolean saying whether the driver resolved
(`true`) or rejected (`false`) it. Counters are natural numbers; the rates
computed from them are doubles, with the rounding of every operation.
-/

namespace SalesEmail

/-! ## Data model -/

/-- A document of the `Email` collection (`emailSchema`). The schema has no
`testId` and no `version` path, so a document built with those keys does not
carry them; `trackingId` is absent when the constructor was given none. -/
structure Email where
  recipient : String
  subject : String
  content : String
  trackingId : Option String
  sentAt : Nat
  opens : List Nat
deriving DecidableEq, Repr

/-- One of the two sub-documents `versionA` / `versionB` of `abTestSchema`. -/
structure Version where
  subject : String
  content : String
  sentCount : Nat
  openCount : Nat
deriving DecidableEq, Repr

/-- An element of `prospects` in `abTestSchema`. -/
structure Prospect where
  email : String
  version : String
deriving DecidableEq, Repr

/-- A document of the `ABTest` collection (`abTestSchema`), with its `_id`. -/
structure ABTest where
  id : Nat
  name : String
  versionA : Version
  versionB : Version
  prospects : List Prospect
  createdAt : Nat
deriving DecidableEq, Repr

/-- The persisted state: the two collections, in insertion order. -/
structure Db where
  emails : List Email
  tests : List ABTest
deriving DecidableEq, Repr

/-! ## Token generation -/

/-- The digit `Buffer.toString('hex')` writes for a nibble. -/
def hexDigit (n : Nat) : Char :=
  if n < 10 then Char.ofNat (48 + n) else Char.ofNat (87 + n)

/-- `buf.toString('hex')`: two lowercase hexadecimal digits per byte. -/
def toHex : List Nat → List Char
  | [] => []
  | b :: bs => hexDigit (b / 16 % 16) :: hexDigit (b % 16) :: toHex bs

/-- `generateTrackingId`, given the bytes returned by `crypto.randomBytes(16)`. -/
def generateTrackingId (randomBytes : List Nat) : String :=
  String.mk (toHex randomBytes)

/-! ## The pixel payload -/

/-- The value of a base64 digit, in the standard and the URL-safe alphabet. -/
def base64Value (c : Char) : Option Nat :=
  if 'A' ≤ c ∧ c ≤ 'Z' then some (c.toNat - 65)
  else if 'a' ≤ c ∧ c ≤ 'z' then some (c.toNat - 97 + 26)
  else if '0' ≤ c ∧ c ≤ '9' then some (c.toNat - 48 + 52)
  else if c = '+' ∨ c = '-' then some 62
  else if c = '/' ∨ c = '_' then some 63
  else none

/-- Packs 6-bit groups into bytes: four groups give three bytes, a trailing
group of three gives two bytes and a trailing group of two gives one. -/
def decodeSextets : List Nat → List Nat
  | a :: b :: c :: d :: rest =>
      (a * 4 + b / 16) :: (b % 16 * 16 + c / 4) :: (c % 4 * 64 + d) :: decodeSextets rest
  | [a, b, c] => [a * 4 + b / 16, b % 16 * 16 + c / 4]
  | [a, b] => [a * 4 + b / 16]
  | _ => []

/-- `Buffer.from(s, 'base64')`: decoding stops at the first `=`, and a
character outside the alphabet is skipped. -/
def bufferFromBase64 (s : String) : List Nat :=
  decodeSextets ((s.toList.takeWhile (fun c => c ≠ '=')).filterMap base64Value)

/-- The constant `pixel` of the pixel handler. -/
def pixel : List Nat :=
  bufferFromBase64 "R0lGODlhAQABAIAAAAAAAP///yH5BAEAAAAALAAAAAABAAEAAAIBRAA7"

/-! ## Pixel handler -/

/-- What `GET /pixel/:trackingId` writes: status line, the two headers of
`writeHead` when it is called, and the body given to `end`. -/
structure PixelResponse where
  status : Nat
  contentType : Option String
  contentLength : Option Nat
  body : List Nat
deriving DecidableEq, Repr

/-- The update `{ $push: { opens: now } }` applied to the first document
matching `{ trackingId }`; nothing changes when no document matches. -/
def pushOpen (trackingId : String) (now : Nat) : List Email → List Email
  | [] => []
  | e :: es =>
      if e.trackingId = some trackingId then { e with opens := e.opens ++ [now] } :: es
      else e :: pushOpen trackingId now es

/-- `Email.findOneAndUpdate({ trackingId }, { $push: { opens: new Date() } })`:
rejects when the database call fails, resolves otherwise (also when no
document matches). -/
def findOneAndUpdate (dbOk : Bool) (emails : List Email) (trackingId : String) (now : Nat) :
    Except String (List Email) :=
  if dbOk then .ok (pushOpen trackingId now emails) else .error "database error"

/-- The response of the `try` branch of the pixel handler. -/
def pixelOk : PixelResponse :=
  { status := 200, contentType := some "image/gif", contentLength := some pixel.length,
    body := pixel }

/-- The response of the `catch` branch of the pixel handler: `res.status(500).end()`. -/
def pixelError : PixelResponse :=
  { status := 500, contentType := none, contentLength := none, body := [] }

/-- `router.get('/pixel/:trackingId')`. -/
def pixelHandler (dbOk : Bool) (now : Nat) (db : Db) (trackingId : String) : Db × PixelResponse :=
  match findOneAndUpdate dbOk db.emails trackingId now with
  | .ok emails => ({ db with emails := emails }, pixelOk)
  | .error _ => (db, pixelError)

/-! ## Sending and per-record statistics -/

/-- A JSON reply: `res.status(status).json(body)`, or the `{ error }` object
the handlers send on their failure paths. -/
inductive Reply (α : Type) where
  | json (status : Nat) (body : α)
  | error (status : Nat) (message : String)
deriving DecidableEq, Repr

/-- The body `{ recipient, subject, content }` of `POST /send`. -/
structure SendRequest where
  recipient : String
  subject : String
  content : String
deriving DecidableEq, Repr

/-- The body `{ trackingId, message }` answered by `POST /send`. -/
structure SendResult where
  trackingId : String
  message : String
deriving DecidableEq, Repr

/-- The unique index the schema declares on `trackingId`, for a document that
carries one: inserting it collides with a stored document of the same
`trackingId`. -/
def duplicateKey (emails : List Email) (doc : Email) : Bool :=
  doc.trackingId.isSome && emails.any (fun e => e.trackingId == doc.trackingId)

/-- `email.save()` of a new document: it is appended to the collection unless
the unique index refuses it or the database rejects the call (`dbOk = false`,
which stands for every other cause of rejection, among them what the database
decides for a document without `trackingId`). -/
def saveEmail (dbOk : Bool) (emails : List Email) (doc : Email) : Except String (List Email) :=
  if dbOk && !duplicateKey emails doc then .ok (emails ++ [doc]) else .error "save rejected"

/-- `router.post('/send')`, given the bytes drawn by `crypto.randomBytes(16)`
and the time at which the document is built. -/
def sendHandler (dbOk : Bool) (randomBytes : List Nat) (now : Nat) (db : Db)
    (req : SendRequest) : Db × Reply SendResult :=
  let trackingId := generateTrackingId randomBytes
  let email : Email :=
    { recipient := req.recipient, subject := req.subject, content := req.content,
      trackingId := some trackingId, sentAt := now, opens := [] }
  match saveEmail dbOk db.emails email with
  | .ok emails =>
      ({ db with emails := emails },
        .json 200 { trackingId := trackingId, message := "Email sent and tracked" })
  | .error _ => (db, .error 500 "Failed to send email")

/-- The body answered by `GET /stats/:trackingId`. -/
structure RecordStats where
  recipient : String
  subject : String
  sentAt : Nat
  openCount : Nat
  lastOpenedAt : Option Nat
deriving DecidableEq, Repr

/-- `Email.findOne({ trackingId })`. -/
def findOne (emails : List Email) (trackingId : String) : Option Email :=
  emails.find? (fun e => e.trackingId == some trackingId)

/-- `router.get('/stats/:trackingId')`. -/
def recordStatsHandler (dbOk : Bool) (db : Db) (trackingId : String) : Reply RecordStats :=
  if dbOk then
    match findOne db.emails trackingId with
    | none => .error 404 "Email not found"
    | some email =>
        .json 200
          { recipient := email.recipient, subject := email.subject, sentAt := email.sentAt,
            openCount := email.opens.length,
            lastOpenedAt :=
              if email.opens.length > 0 then email.opens[email.opens.length - 1]? else none }
  else .error 500 "Failed to fetch email stats"

/-! ## Rates -/

/-- A finite, non-negative value of the JavaScript type Number (an IEEE 754
double outside the subnormal and overflow ranges): zero is `⟨0, 0⟩`, every other
value is `mant * 2 ^ exp` with `2 ^ 52 ≤ mant < 2 ^ 53`. -/
structure JsNumber where
  mant : Nat
  exp : Int
deriving DecidableEq, Repr

/-- The rational number a `JsNumber` stands for. -/
def JsNumber.value (x : JsNumber) : ℚ :=
  (x.mant : ℚ) * (2 : ℚ) ^ x.exp

/-- The number of binary digits of `n`, counted in at most `fuel` halvings. -/
def bitsAux : Nat → Nat → Nat
  | 0, _ => 0
  | fuel + 1, n => if n = 0 then 0 else bitsAux fuel (n / 2) + 1

/-- The number of binary digits of `n` (0 for 0). -/
def bitLength (n : Nat) : Nat :=
  bitsAux n n

/-- A numerator and a denominator of `n / d * 2 ^ (-e)`. -/
def scaled (n d : Nat) (e : Int) : Nat × Nat :=
  if 0 ≤ e then (n, d * 2 ^ e.toNat) else (n * 2 ^ (-e).toNat, d)

/-- The integer nearest to `n / d`, the even one of the two on a tie. -/
def roundHalfEven (n d : Nat) : Nat :=
  if 2 * (n % d) < d then n / d
  else if d < 2 * (n % d) then n / d + 1
  else if n / d % 2 = 0 then n / d
  else n / d + 1

/-- The exponent `e` for which `2 ^ 52 ≤ n / d * 2 ^ (-e) < 2 ^ 53`. -/
def binade (n d : Nat) : Int :=
  let e0 : Int := (bitLength n : Int) - (bitLength d : Int) - 53
  if 2 ^ 53 * (scaled n d e0).2 ≤ (scaled n d e0).1 then e0 + 1 else e0

/-- The double nearest to `n / d * 2 ^ shift` (round to nearest, ties to even),
for `d > 0`: the rounding every arithmetic operation on Numbers applies to its
exact result. -/
def roundRatio (n d : Nat) (shift : Int) : JsNumber :=
  if n = 0 then ⟨0, 0⟩
  else
    let e := binade n d
    let m := roundHalfEven (scaled n d e).1 (scaled n d e).2
    if m = 2 ^ 53 then ⟨2 ^ 52, e + 1 + shift⟩ else ⟨m, e + shift⟩

/-- The Number holding a count or an integer literal (exact below `2 ^ 53`). -/
def JsNumber.ofNat (n : Nat) : JsNumber :=
  roundRatio n 1 0

/-- The operator `/` on Numbers, for a divisor other than zero. -/
def JsNumber.div (x y : JsNumber) : JsNumber :=
  roundRatio x.mant y.mant (x.exp - y.exp)

/-- The operator `*` on Numbers. -/
def JsNumber.mul (x y : JsNumber) : JsNumber :=
  roundRatio (x.mant * y.mant) 1 (x.exp + y.exp)

/-- The expression `den > 0 ? (num / den) * 100 : 0` of `GET /stats` and of
both variants of `GET /test-results/:testId`, in double arithmetic. -/
def openRate (num den : Nat) : JsNumber :=
  if den > 0 then ((JsNumber.ofNat num).div (JsNumber.ofNat den)).mul (JsNumber.ofNat 100)
  else JsNumber.ofNat 0

/-- Two decimal digits of a natural number below 100. -/
def twoDigits (n : Nat) : String :=
  (if n < 10 then "0" else "") ++ toString n

/-- `x.toFixed(2)` for `x < 10^21`: the integer `n` nearest to `100 x` (the
larger one on a tie), written with its last two digits after the point. -/
def toFixed2 (x : JsNumber) : String :=
  let p := scaled (x.mant * 100) 1 (-x.exp)
  let n := (2 * p.1 + p.2) / (2 * p.2)
  toString (n / 100) ++ "." ++ twoDigits (n % 100)

/-- The body answered by `GET /stats`. -/
structure GlobalStats where
  totalEmails : Nat
  openedEmails : Nat
  openRate : String
deriving DecidableEq, Repr

/-- `Email.countDocuments()`. -/
def countDocuments (emails : List Email) : Nat :=
  emails.length

/-- `Email.countDocuments({ 'opens.0': { $exists: true } })`. -/
def countOpened (emails : List Email) : Nat :=
  (emails.filter (fun e => !e.opens.isEmpty)).length

/-- The constant `openRate` computed by `GET /stats` before it is formatted. -/
def globalOpenRate (db : Db) : JsNumber :=
  openRate (countOpened db.emails) (countDocuments db.emails)

/-- `router.get('/stats')`; the two booleans are the outcomes of its two
`countDocuments` calls. -/
def statsHandler (totalOk openedOk : Bool) (db : Db) : Reply GlobalStats :=
  if totalOk && openedOk then
    .json 200
      { totalEmails := countDocuments db.emails, openedEmails := countOpened db.emails,
        openRate := toFixed2 (globalOpenRate db) ++ "%" }
  else .error 500 "Failed to fetch email stats"

/-! ## A/B tests -/

/-- The object returned by `AIEmailGenerator.generateEmail`. -/
structure EmailContent where
  greeting : String
  body : String
  signature : String
deriving DecidableEq, Repr

/-- What the request of `POST /create-test` can put under `versionA` and
`versionB` that the schema keeps; the schema defaults both counters to 0. -/
structure VersionInput where
  subject : String
  sentCount : Option Nat
  openCount : Option Nat
deriving DecidableEq, Repr

/-- The body `{ name, versionA, versionB, prospects }` of `POST /create-test`. -/
structure CreateTestRequest where
  name : String
  versionA : VersionInput
  versionB : VersionInput
  prospects : List String
deriving DecidableEq, Repr

/-- The callback `email => ({ email, version: Math.random() < 0.5 ? 'A' : 'B' })`
mapped over the submitted list; `draws i` is the value `Math.random()` returns
in the call for the element at index `i`. -/
def allocate (draws : Nat → ℚ) : Nat → List String → List Prospect
  | _, [] => []
  | i, email :: rest =>
      { email := email, version := if draws i < 1 / 2 then "A" else "B" } ::
        allocate draws (i + 1) rest

/-- A value assigned to a schema path of type `String`: a string, or an
object such as the one `generateEmail` returns. -/
inductive PathValue where
  | string (s : String)
  | object (o : EmailContent)
deriving DecidableEq, Repr

/-- The cast Mongoose applies to a value given to a `String` path: a string is
kept, a plain object has no string form, so the cast fails and the document
does not validate. -/
def castString : PathValue → Option String
  | .string s => some s
  | .object _ => none

/-- A sub-document `versionA` / `versionB` of a new document, before
validation. -/
structure VersionDraft where
  subject : String
  content : PathValue
  sentCount : Nat
  openCount : Nat
deriving DecidableEq, Repr

/-- A document `new ABTest({ ... })`, before validation. -/
structure ABTestDraft where
  id : Nat
  name : String
  versionA : VersionDraft
  versionB : VersionDraft
  prospects : List Prospect
  createdAt : Nat
deriving DecidableEq, Repr

/-- The sub-document `{ ...version, content }`, `content` being the object
returned by `generateEmail`. -/
def mkVersion (input : VersionInput) (content : EmailContent) : VersionDraft :=
  { subject := input.subject, content := .object content,
    sentCount := input.sentCount.getD 0, openCount := input.openCount.getD 0 }

/-- The document `new ABTest({ name, versionA, versionB, prospects })` built by
create-test; `newId` and `now` are its `_id` and `createdAt`. -/
def newABTest (contentA contentB : EmailContent) (draws : Nat → ℚ) (newId now : Nat)
    (req : CreateTestRequest) : ABTestDraft :=
  { id := newId, name := req.name, versionA := mkVersion req.versionA contentA,
    versionB := mkVersion req.versionB contentB,
    prospects := allocate draws 0 req.prospects, createdAt := now }

/-- Validation of a version sub-document: its `content` is cast to a string. -/
def validateVersion (v : VersionDraft) : Option Version :=
  (castString v.content).map
    (fun c => { subject := v.subject, content := c, sentCount := v.sentCount,
                openCount := v.openCount })

/-- Validation of a new test: both versions have to validate. -/
def validate (draft : ABTestDraft) : Option ABTest :=
  match validateVersion draft.versionA, validateVersion draft.versionB with
  | some a, some b =>
      some { id := draft.id, name := draft.name, versionA := a, versionB := b,
             prospects := draft.prospects, createdAt := draft.createdAt }
  | _, _ => none

/-- `test.save()` of a new document: it is validated, then inserted; the save
is rejected when validation fails or when the database rejects the insertion
(`dbOk = false`). -/
def saveNewTest (dbOk : Bool) (tests : List ABTest) (draft : ABTestDraft) :
    Except String (ABTest × List ABTest) :=
  match validate draft with
  | none => .error "validation failed"
  | some test => if dbOk then .ok (test, tests ++ [test]) else .error "save rejected"

/-- `router.post('/create-test')`. `genA` and `genB` are the outcomes of the two
`generateEmail` calls, `newId` and `now` are the `_id` and `createdAt` given to
the new document, and `saveOk` is the outcome of the insertion in `test.save()`. -/
def createTestHandler (genA genB : Except String EmailContent) (draws : Nat → ℚ)
    (saveOk : Bool) (newId now : Nat) (db : Db) (req : CreateTestRequest) :
    Db × Reply ABTest :=
  match genA with
  | .error _ => (db, .error 500 "Failed to create A/B test")
  | .ok contentA =>
    match genB with
    | .error _ => (db, .error 500 "Failed to create A/B test")
    | .ok contentB =>
      match saveNewTest saveOk db.tests (newABTest contentA contentB draws newId now req) with
      | .ok (test, tests) => ({ db with tests := tests }, .json 201 test)
      | .error _ => (db, .error 500 "Failed to create A/B test")

/-- `ABTest.findById(testId)`. -/
def findById (tests : List ABTest) (testId : Nat) : Option ABTest :=
  tests.find? (fun t => t.id == testId)

/-- The document `new Email({ recipient, subject, content, testId, version })`
built for a prospect in the send loop: no `trackingId` is given, and `testId` and
`version` are not paths of the schema. -/
def testEmail (test : ABTest) (prospect : Prospect) (now : Nat) : Email :=
  let version := if prospect.version = "A" then test.versionA else test.versionB
  { recipient := prospect.email, subject := version.subject, content := version.content,
    trackingId := none, sentAt := now, opens := [] }

/-- `version.sentCount++` on the sub-document the prospect is assigned to. -/
def bumpSent (test : ABTest) (prospect : Prospect) : ABTest :=
  if prospect.version = "A" then
    { test with versionA := { test.versionA with sentCount := test.versionA.sentCount + 1 } }
  else
    { test with versionB := { test.versionB with sentCount := test.versionB.sentCount + 1 } }

/-- The `for (const prospect of test.prospects)` loop from iteration `i` on:
the collection as the loop leaves it, and the in-memory test, or the error of
the first rejected `email.save()`, which ends the loop. -/
def sendLoop (saveOk : Nat → Bool) (clock : Nat → Nat) :
    Nat → List Prospect → ABTest → List Email → List Email × Except String ABTest
  | _, [], test, emails => (emails, .ok test)
  | i, prospect :: rest, test, emails =>
      match saveEmail (saveOk i) emails (testEmail test prospect (clock i)) with
      | .error e => (emails, .error e)
      | .ok emails1 => sendLoop saveOk clock (i + 1) rest (bumpSent test prospect) emails1

/-- `test.save()` of a loaded document: the stored document with its `_id` is
replaced by the in-memory one. -/
def updateTest (test : ABTest) : List ABTest → List ABTest
  | [] => []
  | t :: ts => if t.id = test.id then test :: ts else t :: updateTest test ts

/-- The body `{ message }` answered by `POST /send-test/:testId`. -/
structure Message where
  message : String
deriving DecidableEq, Repr

/-- `router.post('/send-test/:testId')`. `findOk` is the outcome of `findById`,
`saveOk i` that of `email.save()` in iteration `i`, `clock i` the time at which
the document of iteration `i` is built, `testSaveOk` the outcome of `test.save()`. -/
def sendTestHandler (findOk : Bool) (saveOk : Nat → Bool) (clock : Nat → Nat)
    (testSaveOk : Bool) (db : Db) (testId : Nat) : Db × Reply Message :=
  if findOk then
    match findById db.tests testId with
    | none => (db, .error 404 "Test not found")
    | some test =>
      match sendLoop saveOk clock 0 test.prospects test db.emails with
      | (emails, .error _) =>
          ({ db with emails := emails }, .error 500 "Failed to send A/B test emails")
      | (emails, .ok test1) =>
          if testSaveOk then
            ({ emails := emails, tests := updateTest test1 db.tests },
              .json 200 { message := "A/B test emails sent successfully" })
          else ({ db with emails := emails }, .error 500 "Failed to send A/B test emails")
  else (db, .error 500 "Failed to send A/B test emails")

/-- One variant of the body answered by `GET /test-results/:testId`. -/
structure VariantResult where
  sentCount : Nat
  openCount : Nat
  openRate : JsNumber
deriving DecidableEq, Repr

/-- The body answered by `GET /test-results/:testId`. -/
structure TestResults where
  name : String
  versionA : VariantResult
  versionB : VariantResult
deriving DecidableEq, Repr

/-- The entry of `results` computed for one variant. -/
def variantResult (v : Version) : VariantResult :=
  { sentCount := v.sentCount, openCount := v.openCount,
    openRate := openRate v.openCount v.sentCount }

/-- `router.get('/test-results/:testId')`. -/
def testResultsHandler (findOk : Bool) (db : Db) (testId : Nat) : Db × Reply TestResults :=
  if findOk then
    match findById db.tests testId with
    | none => (db, .error 404 "Test not found")
    | some test =>
        (db, .json 200
          { name := test.name, versionA := variantResult test.versionA,
            versionB := variantResult test.versionB })
  else (db, .error 500 "Failed to fetch A/B test results")

/-- `router.get('/all')`: the tests ordered by `createdAt`, latest first. -/
def allHandler (findOk : Bool) (db : Db) : Db × Reply (List ABTest) :=
  if findOk then (db, .json 200 (db.tests.insertionSort (fun a b => a.createdAt ≥ b.createdAt)))
  else (db, .error 500 "Failed to fetch A/B tests")

/-! ## Formatting generated content -/

/-- `content.split('\n\n')` on the characters of the string: the pieces between
the occurrences of the separator, found from left to right without overlap;
the result always has at least one piece. The line feed is a single code unit,
so splitting by characters and by code units cut at the same places. -/
def splitParagraphs : List Char → List (List Char)
  | [] => [[]]
  | [c] => [[c]]
  | c :: d :: rest =>
      if c = '\n' ∧ d = '\n' then [] :: splitParagraphs rest
      else
        match splitParagraphs (d :: rest) with
        | [] => [[c]]
        | p :: ps => (c :: p) :: ps

/-- `paragraphs.join('\n\n')`. -/
def joinParagraphs : List (List Char) → List Char
  | [] => []
  | [p] => p
  | p :: q :: rest => p ++ '\n' :: '\n' :: joinParagraphs (q :: rest)

/-- `paragraphs.slice(1, -1)`. -/
def sliceInner (paragraphs : List (List Char)) : List (List Char) :=
  (paragraphs.take (paragraphs.length - 1)).drop 1

/-- `AIEmailGenerator.formatEmail`; `paragraphs[0]` and
`paragraphs[paragraphs.length - 1]` exist because `split` gives at least one
piece. -/
def formatEmail (content : String) : EmailContent :=
  let paragraphs := splitParagraphs content.toList
  { greeting := String.mk (paragraphs.headD []),
    body := String.mk (joinParagraphs (sliceInner paragraphs)),
    signature := String.mk (paragraphs.getLastD []) }

/-- The template `${emailContent.greeting}\n\n${emailContent.body}\n\n${emailContent.signature}`
with which preview-bulk and generate-bulk build the content of a message. -/
def bulkContent (emailContent : EmailContent) : String :=
  emailContent.greeting ++ "\n\n" ++ emailContent.body ++ "\n\n" ++ emailContent.signature

/-! ## Scenarios -/

/-- The store after pixel requests for `trackingId` arriving, one after the
other, at the times `times`, each with a resolving store write. -/
def pixelHits (trackingId : String) (times : List Nat) (db : Db) : Db :=
  times.foldl (fun d now => (pixelHandler true now d trackingId).1) db

/-- A test, with `_id` 1, of three prospects assigned A, B, A, nothing sent yet. -/
def launchTest : ABTest :=
  { id := 1, name := "launch", versionA := ⟨"Subject A", "Content A", 0, 0⟩,
    versionB := ⟨"Subject B", "Content B", 0, 0⟩,
    prospects := [⟨"p1@x.org", "A"⟩, ⟨"p2@x.org", "B"⟩, ⟨"p3@x.org", "A"⟩],
    createdAt := 50 }

/-- A store holding no delivery record and the single test `launchTest`. -/
def threeProspects : Db :=
  { emails := [], tests := [launchTest] }

/-- The sum of the two `sentCount`s stored for the test `testId`. -/
def storedSentTotal (db : Db) (testId : Nat) : Option Nat :=
  (findById db.tests testId).map (fun t => t.versionA.sentCount + t.versionB.sentCount)

/-- A random source whose first draw is 0.1 and whose later draws are 0.9. -/
def lowThenHigh (i : Nat) : ℚ :=
  if i = 0 then 1 / 10 else 9 / 10

/-- A request of `POST /create-test` with the given list of prospects. -/
def launchRequest (prospects : List String) : CreateTestRequest :=
  { name := "launch", versionA := ⟨"Subject A", none, none⟩,
    versionB := ⟨"Subject B", none, none⟩, prospects := prospects }

/-- A delivery record with the given token and list of opens. -/
def sampleEmail (token : String) (opens : List Nat) : Email :=
  { recipient := "r@x.org", subject := "Hi", content := "Hello", trackingId := some token,
    sentAt := 1, opens := opens }

/-- A store of four delivery records, of which one has been opened. -/
def fourSent : Db :=
  { emails := [sampleEmail "t1" [], sampleEmail "t2" [8, 9], sampleEmail "t3" [],
      sampleEmail "t4" []],
    tests := [] }

/-- A test, with `_id` 1, of one prospect assigned A, nothing sent yet. -/
def seededTest : ABTest :=
  { id := 1, name := "launch", versionA := ⟨"Subject A", "Content A", 0, 0⟩,
    versionB := ⟨"Subject B", "Content B", 0, 0⟩, prospects := [⟨"p1@x.org", "A"⟩],
    createdAt := 50 }

/-- The store holding no delivery record and the single test `seededTest`,
after a send-test for it in which every write resolves. -/
def seededAndSent : Db :=
  (sendTestHandler true (fun _ => true) (fun i => 100 + i) true ⟨[], [seededTest]⟩ 1).1

/-! ## Pixel handler: response and payload -/

theorem pushOpen_of_unknown (t : String) (now : Nat) (emails : List Email)
    (h : ∀ e ∈ emails, e.trackingId ≠ some t) : pushOpen t now emails = emails := by
  induction emails with
  | nil => rfl
  | cons e es ih =>
    have he : e.trackingId ≠ some t := h e (List.mem_cons_self e es)
    have hes : ∀ x ∈ es, x.trackingId ≠ some t := fun x hx => h x (List.mem_cons_of_mem e hx)
    simp [pushOpen, he, ih hes]

theorem pixelHandler_response (dbOk : Bool) (now : Nat) (db : Db) (t : String) :
    (pixelHandler dbOk now db t).2 = if dbOk then pixelOk else pixelError := by
  cases dbOk <;> simp [pixelHandler, findOneAndUpdate]

theorem pixelHandler_tests (dbOk : Bool) (now : Nat) (db : Db) (t : String) :
    (pixelHandler dbOk now db t).1.tests = db.tests := by
  cases dbOk <;> simp [pixelHandler, findOneAndUpdate]

theorem pixelHandler_emails (now : Nat) (db : Db) (t : String) :
    (pixelHandler true now db t).1.emails = pushOpen t now db.emails := by
  simp [pixelHandler, findOneAndUpdate]

/-- C1: for a token no stored record carries, the pixel handler answers, when
its query resolves, 200 with `image/gif` and the fixed payload, and leaves the
store as it was; every other request, on any store and for any token, known or
not, gets the very same response. -/
theorem pixel_response_hides_token (now : Nat) (db : Db) (t : String)
    (hunknown : ∀ e ∈ db.emails, e.trackingId ≠ some t) :
    (pixelHandler true now db t).2 = pixelOk ∧
    pixelOk.status = 200 ∧ pixelOk.contentType = some "image/gif" ∧ pixelOk.body = pixel ∧
    (∀ dbOk : Bool, (pixelHandler dbOk now db t).1 = db) ∧
    ∀ (dbOk : Bool) (now1 : Nat) (db1 : Db) (t1 : String),
      (pixelHandler dbOk now1 db1 t1).2 = (pixelHandler dbOk now db t).2 := by
  refine ⟨by simp [pixelHandler_response], rfl, rfl, rfl, ?_, ?_⟩
  · intro dbOk
    cases dbOk
    · simp [pixelHandler, findOneAndUpdate]
    · simp [pixelHandler, findOneAndUpdate, pushOpen_of_unknown t now db.emails hunknown]
  · intro dbOk now1 db1 t1
    rw [pixelHandler_response, pixelHandler_response]

/-- C1, on a store holding one record with token `abc`, for the token `zzz`. -/
theorem pixel_response_hides_token_witness :
    (∀ e ∈ (Db.mk [⟨"r", "s", "c", some "abc", 1, []⟩] []).emails, e.trackingId ≠ some "zzz") ∧
    (pixelHandler true 5 ⟨[⟨"r", "s", "c", some "abc", 1, []⟩], []⟩ "zzz").2 = pixelOk ∧
    (pixelHandler true 9 ⟨[⟨"r", "s", "c", some "abc", 1, []⟩], []⟩ "abc").2 =
      (pixelHandler true 5 ⟨[⟨"r", "s", "c", some "abc", 1, []⟩], []⟩ "zzz").2 :=
  have h : ∀ e ∈ (Db.mk [⟨"r", "s", "c", some "abc", 1, []⟩] []).emails,
      e.trackingId ≠ some "zzz" := by simp
  ⟨h, (pixel_response_hides_token 5 _ "zzz" h).1,
    (pixel_response_hides_token 5 _ "zzz" h).2.2.2.2.2 true 9 _ "abc"⟩

/-- C2, as stated, fails: when the store write is rejected the pixel handler
answers 500 with an empty body, not the response of a successful write. -/
theorem pixel_store_failure_counterexample :
    (pixelHandler false 0 ⟨[], []⟩ "00").2.status = 500 ∧
    (pixelHandler false 0 ⟨[], []⟩ "00").2.body = [] ∧
    (pixelHandler false 0 ⟨[], []⟩ "00").2 ≠ (pixelHandler true 0 ⟨[], []⟩ "00").2 := by
  decide

/-- C2, amended: the pixel handler answers 200 with the fixed GIF payload
whenever its store query resolves, and 500 with no headers and an empty body,
leaving the store unchanged, when the query is rejected. -/
theorem pixel_status_by_store_outcome (dbOk : Bool) (now : Nat) (db : Db) (t : String) :
    (pixelHandler dbOk now db t).2 = (if dbOk then pixelOk else pixelError) ∧
    pixelOk.status = 200 ∧ pixelOk.body = pixel ∧
    pixelError.status = 500 ∧ pixelError.body = [] ∧
    (pixelHandler false now db t).1 = db :=
  ⟨pixelHandler_response dbOk now db t, rfl, rfl, rfl, rfl, rfl⟩

/-- C3, as stated, fails: the decoded payload does not have 43 bytes, and the
Content-Length header is not 43. -/
theorem pixel_length_counterexample :
    pixel.length ≠ 43 ∧ pixelOk.contentLength ≠ some 43 := by
  decide

/-- C3, amended: the body is the fixed payload of exactly 42 bytes obtained by
decoding the base64 literal; it begins with the signature `GIF89a`, and the
Content-Length header equals the body length, 42. -/
theorem pixel_payload :
    pixel = [71, 73, 70, 56, 57, 97, 1, 0, 1, 0, 128, 0, 0, 0, 0, 0, 255, 255, 255, 33, 249,
      4, 1, 0, 0, 0, 0, 44, 0, 0, 0, 0, 1, 0, 1, 0, 0, 2, 1, 68, 0, 59] ∧
    pixel.length = 42 ∧
    pixel.take 6 = "GIF89a".toList.map Char.toNat ∧
    pixelOk.body = pixel ∧
    pixelOk.contentLength = some pixelOk.body.length ∧
    pixelOk.contentLength = some 42 := by
  decide

/-! ## Token encoding -/

theorem hexDigit_mem (n : Nat) (h : n < 16) : hexDigit n ∈ "0123456789abcdef".toList := by
  interval_cases n <;> decide

theorem hexDigit_injective (m n : Nat) (hm : m < 16) (hn : n < 16)
    (h : hexDigit m = hexDigit n) : m = n := by
  interval_cases m <;> interval_cases n <;> first | rfl | exact absurd h (by decide)

theorem toHex_length (bs : List Nat) : (toHex bs).length = 2 * bs.length := by
  induction bs with
  | nil => rfl
  | cons b bs ih => simp [toHex, ih]; omega

theorem toHex_mem (bs : List Nat) : ∀ c ∈ toHex bs, c ∈ "0123456789abcdef".toList := by
  induction bs with
  | nil => intro c hc; simp [toHex] at hc
  | cons b bs ih =>
    intro c hc
    simp only [toHex, List.mem_cons] at hc
    rcases hc with rfl | rfl | hc
    · exact hexDigit_mem _ (Nat.mod_lt _ (by decide))
    · exact hexDigit_mem _ (Nat.mod_lt _ (by decide))
    · exact ih c hc

theorem toHex_injective (bs cs : List Nat) (hlen : bs.length = cs.length)
    (hb : ∀ b ∈ bs, b < 256) (hc : ∀ c ∈ cs, c < 256) (h : toHex bs = toHex cs) : bs = cs := by
  induction bs generalizing cs with
  | nil =>
    cases cs with
    | nil => rfl
    | cons c cs => simp at hlen
  | cons b bs ih =>
    cases cs with
    | nil => simp at hlen
    | cons c cs =>
      simp only [toHex, List.cons.injEq] at h
      obtain ⟨hhi, hlo, hrest⟩ := h
      have hb1 : b < 256 := hb b (List.mem_cons_self b bs)
      have hc1 : c < 256 := hc c (List.mem_cons_self c cs)
      have e1 := hexDigit_injective _ _ (Nat.mod_lt _ (by decide)) (Nat.mod_lt _ (by decide)) hhi
      have e2 := hexDigit_injective _ _ (Nat.mod_lt _ (by decide)) (Nat.mod_lt _ (by decide)) hlo
      have hbc : b = c := by omega
      have htl : bs = cs :=
        ih cs (by simpa using hlen) (fun x hx => hb x (List.mem_cons_of_mem b hx))
          (fun x hx => hc x (List.mem_cons_of_mem c hx)) hrest
      rw [hbc, htl]

/-- C10: for every value of 16 bytes, the token `generateTrackingId` builds has
exactly 32 characters, each of them one of `0-9a-f`, and two different 16-byte
values never give the same token. -/
theorem generateTrackingId_encoding (bs : List Nat) (hlen : bs.length = 16)
    (hbytes : ∀ b ∈ bs, b < 256) :
    (generateTrackingId bs).length = 32 ∧
    (∀ c ∈ (generateTrackingId bs).toList, c ∈ "0123456789abcdef".toList) ∧
    ∀ cs : List Nat, cs.length = 16 → (∀ c ∈ cs, c < 256) →
      generateTrackingId cs = generateTrackingId bs → cs = bs := by
  refine ⟨?_, ?_, ?_⟩
  · simp [generateTrackingId, String.length, toHex_length, hlen]
  · intro c hc
    exact toHex_mem bs c (by simpa [generateTrackingId] using hc)
  · intro cs hcs hcb h
    have h1 : toHex cs = toHex bs := congrArg String.data h
    exact toHex_injective cs bs (by omega) hcb hbytes h1

/-- C10 on the bytes 0, 17, 34, ..., 255. -/
theorem generateTrackingId_encoding_witness :
    (List.map (fun i => 17 * i) (List.range 16)).length = 16 ∧
    (generateTrackingId (List.map (fun i => 17 * i) (List.range 16))).length = 32 ∧
    generateTrackingId (List.map (fun i => 17 * i) (List.range 16)) =
      "00112233445566778899aabbccddeeff" :=
  ⟨by decide,
    (generateTrackingId_encoding (List.map (fun i => 17 * i) (List.range 16)) (by decide)
      (by decide)).1,
    by decide⟩

/-! ## Open accumulation -/

theorem pushOpen_append_last (t : String) (now : Nat) (emails : List Email) (e : Email)
    (h : ∀ x ∈ emails, x.trackingId ≠ some t) (he : e.trackingId = some t) :
    pushOpen t now (emails ++ [e]) = emails ++ [{ e with opens := e.opens ++ [now] }] := by
  induction emails with
  | nil => simp [pushOpen, he]
  | cons x xs ih =>
    have hx : x.trackingId ≠ some t := h x (List.mem_cons_self x xs)
    have hxs : ∀ y ∈ xs, y.trackingId ≠ some t := fun y hy => h y (List.mem_cons_of_mem x hy)
    simp [pushOpen, hx, ih hxs]

theorem pixelHits_append_last (t : String) (times : List Nat) (emails : List Email)
    (tests : List ABTest) (e : Email) (h : ∀ x ∈ emails, x.trackingId ≠ some t)
    (he : e.trackingId = some t) :
    pixelHits t times ⟨emails ++ [e], tests⟩ =
      ⟨emails ++ [{ e with opens := e.opens ++ times }], tests⟩ := by
  induction times generalizing e with
  | nil => simp [pixelHits]
  | cons now rest ih =>
    have hstep : (pixelHandler true now ⟨emails ++ [e], tests⟩ t).1 =
        ⟨emails ++ [{ e with opens := e.opens ++ [now] }], tests⟩ := by
      simp [pixelHandler, findOneAndUpdate, pushOpen_append_last t now emails e h he]
    have hrec := ih { e with opens := e.opens ++ [now] } he
    simp only [pixelHits, List.foldl_cons] at hrec ⊢
    rw [hstep, hrec]
    simp

theorem findOne_append_last (t : String) (emails : List Email) (e : Email)
    (h : ∀ x ∈ emails, x.trackingId ≠ some t) (he : e.trackingId = some t) :
    findOne (emails ++ [e]) t = some e := by
  induction emails with
  | nil => simp [findOne, he]
  | cons x xs ih =>
    have hx : x.trackingId ≠ some t := h x (List.mem_cons_self x xs)
    have hxs : ∀ y ∈ xs, y.trackingId ≠ some t := fun y hy => h y (List.mem_cons_of_mem x hy)
    have ih1 := ih hxs
    have hb : (x.trackingId == some t) = false := by simpa using hx
    simp only [findOne] at ih1 ⊢
    simp only [List.cons_append, List.find?, hb]
    exact ih1

theorem last_open (ts : List Nat) :
    (if ts.length > 0 then ts[ts.length - 1]? else none) = ts.getLast? := by
  cases ts with
  | nil => rfl
  | cons a as => simp [List.getLast?_eq_getElem?]

theorem saveEmail_ok (dbOk : Bool) (emails out : List Email) (doc : Email)
    (h : saveEmail dbOk emails doc = .ok out) :
    dbOk = true ∧ duplicateKey emails doc = false ∧ out = emails ++ [doc] := by
  unfold saveEmail at h
  cases dbOk <;> cases hd : duplicateKey emails doc <;> simp [hd] at h
  exact ⟨rfl, rfl, h.symm⟩

theorem duplicateKey_false (emails : List Email) (doc : Email) (t : String)
    (hdoc : doc.trackingId = some t) (h : duplicateKey emails doc = false) :
    ∀ x ∈ emails, x.trackingId ≠ some t := by
  intro x hx hxt
  have : duplicateKey emails doc = true := by
    simp only [duplicateKey, hdoc, Option.isSome_some, Bool.true_and, List.any_eq_true]
    exact ⟨x, hx, by simp [hxt]⟩
  rw [h] at this
  exact Bool.noConfusion this

theorem sendHandler_ok (dbOk : Bool) (rnd : List Nat) (now : Nat) (db db1 : Db)
    (req : SendRequest) (r : SendResult)
    (h : sendHandler dbOk rnd now db req = (db1, .json 200 r)) :
    r.trackingId = generateTrackingId rnd ∧
    (∀ x ∈ db.emails, x.trackingId ≠ some r.trackingId) ∧
    db1 = ⟨db.emails ++ [⟨req.recipient, req.subject, req.content, some r.trackingId, now, []⟩],
      db.tests⟩ := by
  unfold sendHandler at h
  simp only at h
  split at h
  · rename_i emails hs
    obtain ⟨_, hdup, hout⟩ := saveEmail_ok _ _ _ _ hs
    simp only [Prod.mk.injEq, Reply.json.injEq, true_and] at h
    obtain ⟨h1, h2⟩ := h
    subst h2
    subst h1
    exact ⟨rfl, duplicateKey_false _ _ _ rfl hdup, by simp [hout]⟩
  · simp at h

/-- C4: for a record created by `POST /send`, after `k` pixel requests for its
token (at any times, in any order, the store write resolving) the per-record
stats report `openCount = k`, the length of `opens`, and `lastOpenedAt` is the
last element of `opens` (null when `k = 0`); every other record and every test
is as before. -/
theorem open_accumulation (dbOk : Bool) (rnd : List Nat) (now : Nat) (db db1 : Db)
    (req : SendRequest) (r : SendResult)
    (hsend : sendHandler dbOk rnd now db req = (db1, .json 200 r)) (times : List Nat) :
    recordStatsHandler true (pixelHits r.trackingId times db1) r.trackingId =
      .json 200
        { recipient := req.recipient, subject := req.subject, sentAt := now,
          openCount := times.length, lastOpenedAt := times.getLast? } ∧
    (pixelHits r.trackingId times db1).emails =
      db.emails ++ [⟨req.recipient, req.subject, req.content, some r.trackingId, now, times⟩] ∧
    (pixelHits r.trackingId times db1).tests = db.tests ∧
    recordStatsHandler true db1 r.trackingId =
      .json 200
        { recipient := req.recipient, subject := req.subject, sentAt := now,
          openCount := 0, lastOpenedAt := none } := by
  obtain ⟨_, hfresh, hdb1⟩ := sendHandler_ok dbOk rnd now db db1 req r hsend
  have hhits := pixelHits_append_last r.trackingId times db.emails db.tests
    ⟨req.recipient, req.subject, req.content, some r.trackingId, now, []⟩ hfresh rfl
  simp only [List.nil_append] at hhits
  have hfind := findOne_append_last r.trackingId db.emails
    ⟨req.recipient, req.subject, req.content, some r.trackingId, now, times⟩ hfresh rfl
  have hfind0 := findOne_append_last r.trackingId db.emails
    ⟨req.recipient, req.subject, req.content, some r.trackingId, now, []⟩ hfresh rfl
  rw [hdb1, hhits]
  refine ⟨?_, rfl, rfl, ?_⟩
  · simp only [recordStatsHandler, hfind, if_true]
    rw [last_open]
  · simp [recordStatsHandler, hfind0]

/-- C4 on an empty store, with three pixel requests at times 20, 10 and 30. -/
theorem open_accumulation_witness :
    sendHandler true (List.replicate 16 171) 7 ⟨[], []⟩ ⟨"a@x.org", "Hi", "Hello"⟩ =
      (⟨[⟨"a@x.org", "Hi", "Hello", some "abababababababababababababababab", 7, []⟩], []⟩,
        .json 200 ⟨"abababababababababababababababab", "Email sent and tracked"⟩) ∧
    recordStatsHandler true
        (pixelHits "abababababababababababababababab" [20, 10, 30]
          ⟨[⟨"a@x.org", "Hi", "Hello", some "abababababababababababababababab", 7, []⟩], []⟩)
        "abababababababababababababababab" =
      .json 200
        { recipient := "a@x.org", subject := "Hi", sentAt := 7, openCount := 3,
          lastOpenedAt := some 30 } :=
  have h : sendHandler true (List.replicate 16 171) 7 ⟨[], []⟩ ⟨"a@x.org", "Hi", "Hello"⟩ =
      (⟨[⟨"a@x.org", "Hi", "Hello", some "abababababababababababababababab", 7, []⟩], []⟩,
        .json 200 ⟨"abababababababababababababababab", "Email sent and tracked"⟩) := by decide
  ⟨h, (open_accumulation true _ 7 _ _ ⟨"a@x.org", "Hi", "Hello"⟩ _ h [20, 10, 30]).1⟩

/-! ## Sending an A/B test -/

theorem saveEmail_untracked (emails : List Email) (doc : Email) (h : doc.trackingId = none) :
    saveEmail true emails doc = .ok (emails ++ [doc]) := by
  simp [saveEmail, duplicateKey, h]

theorem saveEmail_rejected (emails : List Email) (doc : Email) :
    saveEmail false emails doc = .error "save rejected" := by
  simp [saveEmail]

theorem testEmail_bumpSent (test : ABTest) (p q : Prospect) (now : Nat) :
    testEmail (bumpSent test p) q now = testEmail test q now := by
  unfold testEmail bumpSent
  by_cases hp : p.version = "A" <;> by_cases hq : q.version = "A" <;> simp [hp, hq]

theorem sendLoop_ok (saveOk : Nat → Bool) (clock : Nat → Nat) (ps : List Prospect) :
    ∀ (i : Nat) (test : ABTest) (emails : List Email),
      (∀ k < ps.length, saveOk (i + k) = true) →
      sendLoop saveOk clock i ps test emails =
        (emails ++ (ps.enumFrom i).map (fun ip => testEmail test ip.2 (clock ip.1)),
          .ok (ps.foldl bumpSent test)) := by
  induction ps with
  | nil => intro i test emails _; simp [sendLoop]
  | cons p ps ih =>
    intro i test emails h
    have h0 : saveOk i = true := by simpa using h 0 (by simp)
    have hrest : ∀ k < ps.length, saveOk (i + 1 + k) = true := by
      intro k hk
      have := h (k + 1) (by simpa using hk)
      rwa [show i + 1 + k = i + (k + 1) by omega]
    simp only [sendLoop, h0, saveEmail_untracked emails (testEmail test p (clock i)) rfl]
    rw [ih (i + 1) (bumpSent test p) (emails ++ [testEmail test p (clock i)]) hrest]
    simp [List.enumFrom, testEmail_bumpSent]

theorem sendLoop_fail (saveOk : Nat → Bool) (clock : Nat → Nat) (ps : List Prospect) :
    ∀ (i j : Nat) (test : ABTest) (emails : List Email), j < ps.length →
      (∀ k < j, saveOk (i + k) = true) → saveOk (i + j) = false →
      sendLoop saveOk clock i ps test emails =
        (emails ++ ((ps.take j).enumFrom i).map (fun ip => testEmail test ip.2 (clock ip.1)),
          .error "save rejected") := by
  induction ps with
  | nil => intro i j test emails hj; simp at hj
  | cons p ps ih =>
    intro i j test emails hj hok hfail
    cases j with
    | zero =>
      have h0 : saveOk i = false := by simpa using hfail
      simp [sendLoop, h0, saveEmail_rejected]
    | succ j =>
      have h0 : saveOk i = true := by simpa using hok 0 (by omega)
      have hrest : ∀ k < j, saveOk (i + 1 + k) = true := by
        intro k hk
        have := hok (k + 1) (by omega)
        rwa [show i + 1 + k = i + (k + 1) by omega]
      have hfail1 : saveOk (i + 1 + j) = false := by
        rwa [show i + 1 + j = i + (j + 1) by omega]
      simp only [sendLoop, h0, saveEmail_untracked emails (testEmail test p (clock i)) rfl]
      rw [ih (i + 1) j (bumpSent test p) (emails ++ [testEmail test p (clock i)])
        (by simpa using hj) hrest hfail1]
      simp [List.enumFrom, testEmail_bumpSent]

theorem foldl_bumpSent (ps : List Prospect) :
    ∀ test : ABTest, ps.foldl bumpSent test =
      { test with
        versionA :=
          { test.versionA with
            sentCount := test.versionA.sentCount + ps.countP (fun p => p.version = "A") },
        versionB :=
          { test.versionB with
            sentCount := test.versionB.sentCount + ps.countP (fun p => ¬ p.version = "A") } } := by
  induction ps with
  | nil => intro test; simp
  | cons p ps ih =>
    intro test
    rw [List.foldl_cons, ih]
    by_cases hp : p.version = "A"
    · simp [bumpSent, hp, List.countP_cons]; omega
    · simp [bumpSent, hp, List.countP_cons]; omega

theorem findById_id (tests : List ABTest) (testId : Nat) (test : ABTest)
    (h : findById tests testId = some test) : test.id = testId := by
  have := List.find?_some h
  simpa using this

theorem findById_updateTest (tests : List ABTest) (testId : Nat) (test new : ABTest)
    (h : findById tests testId = some test) (hid : new.id = testId) :
    findById (updateTest new tests) testId = some new := by
  induction tests with
  | nil => simp [findById] at h
  | cons t ts ih =>
    by_cases ht : t.id = testId
    · simp [updateTest, findById, ht, hid]
    · have hb : (t.id == testId) = false := by simpa using ht
      have hts : findById ts testId = some test := by
        simp only [findById, List.find?, hb] at h
        exact h
      have hne : ¬ t.id = new.id := by rw [hid]; exact ht
      have ih1 := ih hts
      simp only [findById] at ih1
      simp only [updateTest, hne, if_false, findById, List.find?, hb]
      exact ih1

/-- C6: when the test is found and every record insertion resolves, send-test
appends exactly one delivery record per prospect, in order (recipient the
prospect's email, subject and content those of the prospect's variant:
`versionA` for 'A', `versionB` otherwise), and, its final save resolving,
answers 200 and stores the test with `versionA.sentCount` increased by the
number of prospects assigned 'A' and `versionB.sentCount` by the number of the
others; the two increases sum to the number of prospects. -/
theorem sendTest_records_and_counts (saveOk : Nat → Bool) (clock : Nat → Nat) (db : Db)
    (testId : Nat) (test : ABTest) (hfind : findById db.tests testId = some test)
    (hsaves : ∀ i < test.prospects.length, saveOk i = true) :
    sendTestHandler true saveOk clock true db testId =
      (⟨db.emails ++
          (test.prospects.enumFrom 0).map (fun ip => testEmail test ip.2 (clock ip.1)),
        updateTest (test.prospects.foldl bumpSent test) db.tests⟩,
        .json 200 ⟨"A/B test emails sent successfully"⟩) ∧
    (∀ testSaveOk : Bool,
      (sendTestHandler true saveOk clock testSaveOk db testId).1.emails =
        db.emails ++
          (test.prospects.enumFrom 0).map (fun ip => testEmail test ip.2 (clock ip.1))) ∧
    ((test.prospects.enumFrom 0).map (fun ip => testEmail test ip.2 (clock ip.1))).length =
      test.prospects.length ∧
    (∀ (p : Prospect) (now : Nat),
      (testEmail test p now).recipient = p.email ∧
      (testEmail test p now).subject =
        (if p.version = "A" then test.versionA else test.versionB).subject ∧
      (testEmail test p now).content =
        (if p.version = "A" then test.versionA else test.versionB).content) ∧
    findById (updateTest (test.prospects.foldl bumpSent test) db.tests) testId =
      some (test.prospects.foldl bumpSent test) ∧
    (test.prospects.foldl bumpSent test).versionA.sentCount =
      test.versionA.sentCount + test.prospects.countP (fun p => p.version = "A") ∧
    (test.prospects.foldl bumpSent test).versionB.sentCount =
      test.versionB.sentCount + test.prospects.countP (fun p => ¬ p.version = "A") ∧
    test.prospects.countP (fun p => p.version = "A") +
      test.prospects.countP (fun p => ¬ p.version = "A") = test.prospects.length := by
  have hloop := sendLoop_ok saveOk clock test.prospects 0 test db.emails
    (by intro k hk; simpa using hsaves k hk)
  have hid : (test.prospects.foldl bumpSent test).id = testId := by
    rw [foldl_bumpSent]; exact findById_id db.tests testId test hfind
  refine ⟨?_, ?_, by simp, ?_, ?_, ?_, ?_, ?_⟩
  · simp only [sendTestHandler, hfind, hloop, if_true]
  · intro testSaveOk
    cases testSaveOk <;> simp [sendTestHandler, hfind, hloop]
  · intro p now
    by_cases hp : p.version = "A" <;> simp [testEmail, hp]
  · exact findById_updateTest db.tests testId test _ hfind hid
  · rw [foldl_bumpSent]
  · rw [foldl_bumpSent]
  · have := List.length_eq_countP_add_countP (fun p : Prospect => decide (p.version = "A"))
      test.prospects
    simp only [decide_not] at this ⊢
    simpa using this.symm

/-- C6 on the store `threeProspects`, every write resolving. -/
theorem sendTest_records_and_counts_witness :
    findById threeProspects.tests 1 = some launchTest ∧
    (∀ i < launchTest.prospects.length, (fun _ : Nat => true) i = true) ∧
    (sendTestHandler true (fun _ => true) (fun i => 100 + i) true threeProspects 1).1.emails =
      [⟨"p1@x.org", "Subject A", "Content A", none, 100, []⟩,
       ⟨"p2@x.org", "Subject B", "Content B", none, 101, []⟩,
       ⟨"p3@x.org", "Subject A", "Content A", none, 102, []⟩] ∧
    storedSentTotal
      (sendTestHandler true (fun _ => true) (fun i => 100 + i) true threeProspects 1).1 1 =
        some 3 :=
  have h := sendTest_records_and_counts (fun _ => true) (fun i => 100 + i) threeProspects 1
    launchTest (by decide) (fun _ _ => rfl)
  ⟨by decide, fun _ _ => rfl, by rw [h.1]; decide, by rw [h.1]; decide⟩

/-- C7, as stated, fails: with the insertion for prospect 2 of 3 rejected,
send-test answers the 500 error and no summary, exactly one delivery record
exists (not two), and the stored `sentCount` total is 0 (not 2). -/
theorem sendTest_partial_failure_counterexample :
    (sendTestHandler true (fun i => i != 1) (fun i => 100 + i) true threeProspects 1).2 =
      .error 500 "Failed to send A/B test emails" ∧
    (sendTestHandler true (fun i => i != 1) (fun i => 100 + i) true threeProspects 1).1.emails =
      [⟨"p1@x.org", "Subject A", "Content A", none, 100, []⟩] ∧
    storedSentTotal
      (sendTestHandler true (fun i => i != 1) (fun i => 100 + i) true threeProspects 1).1 1 =
        some 0 := by
  decide

/-- C7, amended: if the insertion for one prospect is rejected, send-test stops
at that prospect and answers the 500 error: the records of the prospects before
it stay in the store, the prospects from it on get no record, and the stored
test is not updated. -/
theorem sendTest_aborts_at_first_failure (saveOk : Nat → Bool) (clock : Nat → Nat)
    (testSaveOk : Bool) (db : Db) (testId : Nat) (test : ABTest) (j : Nat)
    (hfind : findById db.tests testId = some test) (hj : j < test.prospects.length)
    (hbefore : ∀ i < j, saveOk i = true) (hfail : saveOk j = false) :
    sendTestHandler true saveOk clock testSaveOk db testId =
      (⟨db.emails ++
          ((test.prospects.take j).enumFrom 0).map (fun ip => testEmail test ip.2 (clock ip.1)),
        db.tests⟩,
        .error 500 "Failed to send A/B test emails") ∧
    (((test.prospects.take j).enumFrom 0).map
      (fun ip => testEmail test ip.2 (clock ip.1))).length = j := by
  have hloop := sendLoop_fail saveOk clock test.prospects 0 j test db.emails hj
    (by intro k hk; simpa using hbefore k hk) (by simpa using hfail)
  refine ⟨?_, ?_⟩
  · simp only [sendTestHandler, hfind, hloop, if_true]
  · simp only [List.length_map, List.enumFrom_length, List.length_take]
    omega

/-- C7, amended, on the store `threeProspects` with the insertion for
prospect 2 rejected. -/
theorem sendTest_aborts_at_first_failure_witness :
    findById threeProspects.tests 1 = some launchTest ∧
    1 < launchTest.prospects.length ∧
    (∀ i < 1, (fun i : Nat => i != 1) i = true) ∧
    (fun i : Nat => i != 1) 1 = false ∧
    (sendTestHandler true (fun i => i != 1) (fun i => 100 + i) true threeProspects 1).1.emails =
      [⟨"p1@x.org", "Subject A", "Content A", none, 100, []⟩] ∧
    (sendTestHandler true (fun i => i != 1) (fun i => 100 + i) true threeProspects 1).1.tests =
      threeProspects.tests ∧
    (sendTestHandler true (fun i => i != 1) (fun i => 100 + i) true threeProspects 1).2 =
      .error 500 "Failed to send A/B test emails" :=
  have h := sendTest_aborts_at_first_failure (fun i => i != 1) (fun i => 100 + i) true
    threeProspects 1 launchTest 1 (by decide) (by decide) (by decide) (by decide)
  ⟨by decide, by decide, by decide, by decide, by rw [h.1]; decide, by rw [h.1], by rw [h.1]⟩

/-! ## Variant allocation -/

theorem allocate_eq_map (draws : Nat → ℚ) (emails : List String) :
    ∀ i : Nat, allocate draws i emails =
      (emails.enumFrom i).map
        (fun ie => ({ email := ie.2, version := if draws ie.1 < 1 / 2 then "A" else "B" } :
          Prospect)) := by
  induction emails with
  | nil => intro i; rfl
  | cons e es ih => intro i; simp [allocate, List.enumFrom, ih (i + 1)]

theorem allocate_emails (draws : Nat → ℚ) (emails : List String) :
    ∀ i : Nat, (allocate draws i emails).map (fun p => p.email) = emails := by
  induction emails with
  | nil => intro i; rfl
  | cons e es ih => intro i; simp [allocate, ih (i + 1)]

theorem allocate_version (draws : Nat → ℚ) (emails : List String) :
    ∀ i : Nat, ∀ p ∈ allocate draws i emails, p.version = "A" ∨ p.version = "B" := by
  induction emails with
  | nil => intro i p hp; simp [allocate] at hp
  | cons e es ih =>
    intro i p hp
    simp only [allocate, List.mem_cons] at hp
    rcases hp with rfl | hp
    · by_cases h : draws i < 1 / 2
      · exact Or.inl (if_pos h)
      · exact Or.inr (if_neg h)
    · exact ih (i + 1) p hp

theorem bumpSent_id_prospects (test : ABTest) (p : Prospect) :
    (bumpSent test p).id = test.id ∧ (bumpSent test p).prospects = test.prospects := by
  unfold bumpSent
  by_cases hp : p.version = "A" <;> simp [hp]

theorem sendLoop_id_prospects (saveOk : Nat → Bool) (clock : Nat → Nat) (ps : List Prospect) :
    ∀ (i : Nat) (test test1 : ABTest) (emails emails1 : List Email),
      sendLoop saveOk clock i ps test emails = (emails1, .ok test1) →
      test1.id = test.id ∧ test1.prospects = test.prospects := by
  induction ps with
  | nil =>
    intro i test test1 emails emails1 h
    simp only [sendLoop, Prod.mk.injEq, Except.ok.injEq] at h
    rw [← h.2]
    exact ⟨rfl, rfl⟩
  | cons p ps ih =>
    intro i test test1 emails emails1 h
    simp only [sendLoop] at h
    split at h
    · simp at h
    · have := ih _ _ _ _ _ h
      rw [this.1, this.2]
      exact bumpSent_id_prospects test p

theorem updateTest_assignments (tests : List ABTest) (testId : Nat) (test new : ABTest)
    (h : findById tests testId = some test) (hid : new.id = test.id)
    (hps : new.prospects = test.prospects) :
    (updateTest new tests).map (fun t => (t.id, t.prospects)) =
      tests.map (fun t => (t.id, t.prospects)) := by
  induction tests with
  | nil => rfl
  | cons t ts ih =>
    by_cases ht : t.id = testId
    · have hb : (t.id == testId) = true := by simpa using ht
      have htt : t = test := by
        simp only [findById, List.find?, hb, Option.some.injEq] at h
        exact h
      have hnew : t.id = new.id := by rw [hid, htt]
      simp [updateTest, hnew, hps, htt, hid]
    · have hb : (t.id == testId) = false := by simpa using ht
      have hts : findById ts testId = some test := by
        simp only [findById, List.find?, hb] at h
        exact h
      have hne : ¬ t.id = new.id := by
        rw [hid, findById_id ts testId test hts]; exact ht
      simp [updateTest, hne, ih hts]

theorem sendTestHandler_assignments (findOk : Bool) (saveOk : Nat → Bool) (clock : Nat → Nat)
    (testSaveOk : Bool) (db : Db) (testId : Nat) :
    (sendTestHandler findOk saveOk clock testSaveOk db testId).1.tests.map
        (fun t => (t.id, t.prospects)) =
      db.tests.map (fun t => (t.id, t.prospects)) := by
  unfold sendTestHandler
  cases findOk
  · simp
  · simp only [if_true]
    cases hfind : findById db.tests testId with
    | none => simp
    | some test =>
      simp only
      cases hloop : sendLoop saveOk clock 0 test.prospects test db.emails with
      | mk emails res =>
        cases res with
        | error e => simp
        | ok test1 =>
          cases testSaveOk
          · simp
          · have := sendLoop_id_prospects saveOk clock test.prospects 0 test test1 _ _ hloop
            simpa using updateTest_assignments db.tests testId test test1 hfind this.1 this.2

theorem createTestHandler_rejected (genA genB : Except String EmailContent)
    (draws : Nat → ℚ) (saveOk : Bool) (newId now : Nat) (db : Db) (req : CreateTestRequest) :
    createTestHandler genA genB draws saveOk newId now db req =
      (db, .error 500 "Failed to create A/B test") := by
  cases genA <;> cases genB <;>
    simp [createTestHandler, saveNewTest, validate, validateVersion, newABTest, mkVersion,
      castString]

/-- C8, as stated, fails: for a submitted list naming the same email twice and
the draws 0.1 and 0.9, the test document create-test builds holds two prospects
for that email with the two different assignments A and B; and the handler
answers 500 and stores no prospects at all. -/
theorem createTest_duplicate_email_counterexample :
    (newABTest ⟨"g", "b", "s"⟩ ⟨"g", "b", "s"⟩ lowThenHigh 1 50
        (launchRequest ["p@x.org", "p@x.org"])).prospects =
      [⟨"p@x.org", "A"⟩, ⟨"p@x.org", "B"⟩] ∧
    createTestHandler (.ok ⟨"g", "b", "s"⟩) (.ok ⟨"g", "b", "s"⟩) lowThenHigh true 1 50
        ⟨[], []⟩ (launchRequest ["p@x.org", "p@x.org"]) =
      (⟨[], []⟩, .error 500 "Failed to create A/B test") := by
  have h0 : lowThenHigh 0 < 1 / 2 := by norm_num [lowThenHigh]
  have h1 : ¬ lowThenHigh 1 < 1 / 2 := by norm_num [lowThenHigh]
  refine ⟨?_, createTestHandler_rejected _ _ _ _ _ _ _ _⟩
  simp only [newABTest, launchRequest, allocate, h0, h1, if_true, if_false]

/-- C8, amended: for every submitted list of pairwise distinct prospect emails
and every outcome of the random source, the test document create-test builds
holds one prospect per submitted email, in order, each with one variant, 'A'
exactly when its draw is below 0.5 and 'B' otherwise, so no email has two
assignments; send-test, test-results and all never change the prospects of a
stored test. -/
theorem createTest_allocation (contentA contentB : EmailContent) (draws : Nat → ℚ)
    (newId now : Nat) (req : CreateTestRequest) (hdistinct : req.prospects.Nodup) :
    (newABTest contentA contentB draws newId now req).prospects =
      (req.prospects.enumFrom 0).map
        (fun ie => ({ email := ie.2, version := if draws ie.1 < 1 / 2 then "A" else "B" } :
          Prospect)) ∧
    (newABTest contentA contentB draws newId now req).prospects.map (fun p => p.email) =
      req.prospects ∧
    (∀ p ∈ (newABTest contentA contentB draws newId now req).prospects,
      p.version = "A" ∨ p.version = "B") ∧
    (∀ p ∈ (newABTest contentA contentB draws newId now req).prospects,
      ∀ q ∈ (newABTest contentA contentB draws newId now req).prospects,
      p.email = q.email → p.version = q.version) ∧
    (∀ (findOk : Bool) (saveOk : Nat → Bool) (clock : Nat → Nat) (testSaveOk : Bool) (d : Db)
      (testId : Nat),
      (sendTestHandler findOk saveOk clock testSaveOk d testId).1.tests.map
          (fun t => (t.id, t.prospects)) =
        d.tests.map (fun t => (t.id, t.prospects))) ∧
    (∀ (findOk : Bool) (d : Db) (testId : Nat), (testResultsHandler findOk d testId).1 = d) ∧
    (∀ (findOk : Bool) (d : Db), (allHandler findOk d).1 = d) := by
  have hp : (newABTest contentA contentB draws newId now req).prospects =
      allocate draws 0 req.prospects := rfl
  rw [hp]
  refine ⟨allocate_eq_map draws req.prospects 0, allocate_emails draws req.prospects 0,
    allocate_version draws req.prospects 0, ?_, sendTestHandler_assignments, ?_, ?_⟩
  · intro p hp q hq hpq
    have hnd : ((allocate draws 0 req.prospects).map (fun p => p.email)).Nodup := by
      rw [allocate_emails]; exact hdistinct
    rw [List.inj_on_of_nodup_map hnd hp hq hpq]
  · intro findOk d testId
    unfold testResultsHandler
    cases findOk
    · rfl
    · cases findById d.tests testId <;> rfl
  · intro findOk d
    cases findOk <;> rfl

/-- C8, amended, for two distinct emails with the draws 0.1 and 0.9. -/
theorem createTest_allocation_witness :
    ["p1@x.org", "p2@x.org"].Nodup ∧
    (newABTest ⟨"g", "b", "s"⟩ ⟨"g", "b", "s"⟩ lowThenHigh 1 50
        (launchRequest ["p1@x.org", "p2@x.org"])).prospects.map (fun p => p.email) =
      ["p1@x.org", "p2@x.org"] ∧
    (∀ p ∈ (newABTest ⟨"g", "b", "s"⟩ ⟨"g", "b", "s"⟩ lowThenHigh 1 50
        (launchRequest ["p1@x.org", "p2@x.org"])).prospects,
      ∀ q ∈ (newABTest ⟨"g", "b", "s"⟩ ⟨"g", "b", "s"⟩ lowThenHigh 1 50
        (launchRequest ["p1@x.org", "p2@x.org"])).prospects,
      p.email = q.email → p.version = q.version) :=
  have h := createTest_allocation ⟨"g", "b", "s"⟩ ⟨"g", "b", "s"⟩ lowThenHigh 1 50
    (launchRequest ["p1@x.org", "p2@x.org"]) (by decide)
  ⟨by decide, h.2.1, h.2.2.2.1⟩

/-! ## Rates -/

theorem bitsAux_bounds : ∀ fuel n : Nat, n ≤ fuel → 0 < n →
    ∃ k, bitsAux fuel n = k + 1 ∧ 2 ^ k ≤ n ∧ n < 2 ^ (k + 1) := by
  intro fuel
  induction fuel with
  | zero => intro n h0 hn; omega
  | succ fuel ih =>
    intro n hle hn
    have hne : n ≠ 0 := by omega
    by_cases h2 : n / 2 = 0
    · refine ⟨0, ?_, ?_, ?_⟩
      · cases fuel with
        | zero => simp [bitsAux, hne, h2]
        | succ f => simp [bitsAux, hne, h2]
      · omega
      · have : n < 2 := Nat.div_eq_zero_iff (by decide) |>.mp h2
        simpa using this
    · obtain ⟨k, hk, hlo, hhi⟩ := ih (n / 2) (by omega) (by omega)
      refine ⟨k + 1, ?_, ?_, ?_⟩
      · simp [bitsAux, hne, hk]
      · rw [pow_succ]; omega
      · rw [pow_succ]; omega

theorem bitLength_bounds (n : Nat) (hn : 0 < n) :
    ∃ k, bitLength n = k + 1 ∧ 2 ^ k ≤ n ∧ n < 2 ^ (k + 1) :=
  bitsAux_bounds n n (le_refl n) hn


theorem scaled_den_pos (n d : Nat) (e : Int) (hd : 0 < d) : 0 < (scaled n d e).2 := by
  unfold scaled
  split
  · exact Nat.mul_pos hd (pow_pos (by decide) _)
  · exact hd

theorem scaled_ratio (n d : Nat) (e : Int) (hd : 0 < d) :
    (((scaled n d e).1 : ℚ)) / ((scaled n d e).2 : ℚ) = (n : ℚ) / (d : ℚ) * (2 : ℚ) ^ (-e) := by
  have hd0 : (d : ℚ) ≠ 0 := by exact_mod_cast hd.ne'
  unfold scaled
  split
  · rename_i h
    obtain ⟨k, rfl⟩ := Int.eq_ofNat_of_zero_le h
    simp only [Int.toNat_ofNat, Nat.cast_mul, Nat.cast_pow, Nat.cast_ofNat, zpow_neg, zpow_natCast]
    field_simp
  · rename_i h
    obtain ⟨k, hk⟩ := Int.eq_ofNat_of_zero_le (show 0 ≤ -e by omega)
    rw [hk]
    simp only [Int.toNat_ofNat, Nat.cast_mul, Nat.cast_pow, Nat.cast_ofNat, zpow_natCast]
    field_simp

theorem roundHalfEven_error (n d : Nat) (hd : 0 < d) :
    |((roundHalfEven n d : Nat) : ℚ) - (n : ℚ) / (d : ℚ)| ≤ 1 / 2 := by
  have hdq : (0 : ℚ) < d := by exact_mod_cast hd
  have hn : (n : ℚ) = (d : ℚ) * ((n / d : Nat) : ℚ) + ((n % d : Nat) : ℚ) := by
    exact_mod_cast (Nat.div_add_mod n d).symm
  have hr : ((n % d : Nat) : ℚ) < d := by exact_mod_cast Nat.mod_lt n hd
  have hr0 : (0 : ℚ) ≤ ((n % d : Nat) : ℚ) := by positivity
  have key : ∀ m : ℚ, -(d : ℚ) ≤ 2 * (m * d - n) → 2 * (m * d - n) ≤ d →
      |m - (n : ℚ) / (d : ℚ)| ≤ 1 / 2 := by
    intro m h1 h2
    have hm : m - (n : ℚ) / (d : ℚ) = (m * d - n) / d := by
      field_simp
    rw [hm, abs_le]
    constructor
    · rw [le_div_iff₀ hdq]
      linarith
    · rw [div_le_iff₀ hdq]
      linarith
  unfold roundHalfEven
  split
  · rename_i h
    have hq : 2 * ((n % d : Nat) : ℚ) < d := by exact_mod_cast h
    apply key <;> nlinarith
  · rename_i h
    have hq : (d : ℚ) ≤ 2 * ((n % d : Nat) : ℚ) := by exact_mod_cast Nat.le_of_not_lt h
    split
    · apply key <;> push_cast <;> nlinarith
    · rename_i h2
      have hq2 : 2 * ((n % d : Nat) : ℚ) ≤ d := by exact_mod_cast Nat.le_of_not_lt h2
      split
      · apply key <;> nlinarith
      · apply key <;> push_cast <;> nlinarith


theorem binade_range (n d : Nat) (hn : 0 < n) (hd : 0 < d) :
    (2 : ℚ) ^ 52 ≤ (n : ℚ) / (d : ℚ) * (2 : ℚ) ^ (-binade n d) ∧
    (n : ℚ) / (d : ℚ) * (2 : ℚ) ^ (-binade n d) < (2 : ℚ) ^ 53 := by
  obtain ⟨a, ha, hna, hna1⟩ := bitLength_bounds n hn
  obtain ⟨b, hb, hdb, hdb1⟩ := bitLength_bounds d hd
  have hnq : (2 : ℚ) ^ a ≤ n := by exact_mod_cast hna
  have hnq1 : (n : ℚ) < 2 ^ (a + 1) := by exact_mod_cast hna1
  have hdq : (2 : ℚ) ^ b ≤ d := by exact_mod_cast hdb
  have hdq1 : (d : ℚ) < 2 ^ (b + 1) := by exact_mod_cast hdb1
  have hd0 : (0 : ℚ) < d := by exact_mod_cast hd
  have hn0 : (0 : ℚ) < n := by exact_mod_cast hn
  have hpa : (0 : ℚ) < 2 ^ a := by positivity
  have hpb : (0 : ℚ) < 2 ^ b := by positivity
  have he0 : ((bitLength n : Int) - (bitLength d : Int) - 53) = (a : Int) - b - 53 := by
    rw [ha, hb]; push_cast; ring
  have hpow : (2 : ℚ) ^ (-((a : Int) - b - 53)) = 2 ^ (b + 53) / 2 ^ a := by
    have : -((a : Int) - b - 53) = ((b + 53 : Nat) : Int) - ((a : Nat) : Int) := by
      push_cast; ring
    rw [this, zpow_sub₀ (by norm_num : (2 : ℚ) ≠ 0), zpow_natCast, zpow_natCast]
  have hr0 : (n : ℚ) / d * (2 : ℚ) ^ (-((a : Int) - b - 53)) = n * 2 ^ (b + 53) / (d * 2 ^ a) := by
    rw [hpow]; field_simp
  have hlo0 : (2 : ℚ) ^ 52 ≤ n * 2 ^ (b + 53) / (d * 2 ^ a) := by
    rw [le_div_iff₀ (by positivity)]
    have h1 : (d : ℚ) * 2 ^ a ≤ 2 ^ (b + 1) * n :=
      mul_le_mul hdq1.le hnq (by positivity) (by positivity)
    have h2 : (2 : ℚ) ^ (b + 53) = 2 ^ 52 * 2 ^ (b + 1) := by ring
    rw [h2]
    nlinarith
  have hhi0 : (n : ℚ) * 2 ^ (b + 53) / (d * 2 ^ a) < 2 ^ 54 := by
    rw [div_lt_iff₀ (by positivity)]
    have h1 : (n : ℚ) * 2 ^ b < 2 ^ (a + 1) * d :=
      mul_lt_mul hnq1 hdq (by positivity) (by positivity)
    have h2 : (2 : ℚ) ^ (b + 53) = 2 ^ 53 * 2 ^ b := by ring
    have h3 : (2 : ℚ) ^ (a + 1) = 2 * 2 ^ a := by ring
    rw [h2]
    rw [h3] at h1
    nlinarith
  have hchk : (2 ^ 53 * (scaled n d ((a : Int) - b - 53)).2 ≤ (scaled n d ((a : Int) - b - 53)).1) ↔
      (2 : ℚ) ^ 53 ≤ n * 2 ^ (b + 53) / (d * 2 ^ a) := by
    have hs := scaled_ratio n d ((a : Int) - b - 53) hd
    have hsp : (0 : ℚ) < ((scaled n d ((a : Int) - b - 53)).2 : ℚ) := by
      exact_mod_cast scaled_den_pos n d _ hd
    rw [← hr0, ← hs, le_div_iff₀ hsp]
    constructor
    · intro h; exact_mod_cast h
    · intro h; exact_mod_cast h
  unfold binade
  simp only [he0]
  split
  · rename_i h
    have h53 := hchk.mp h
    have hhalf : (2 : ℚ) ^ (-((a : Int) - b - 53 + 1)) =
        (2 : ℚ) ^ (-((a : Int) - b - 53)) / 2 := by
      rw [neg_add, zpow_add₀ (by norm_num : (2 : ℚ) ≠ 0)]
      norm_num
      ring
    rw [hhalf, ← mul_div_assoc, hr0]
    constructor
    · linarith
    · linarith
  · rename_i h
    have h53 : ¬ (2 : ℚ) ^ 53 ≤ n * 2 ^ (b + 53) / (d * 2 ^ a) := fun hc => h (hchk.mpr hc)
    rw [hr0]
    exact ⟨hlo0, lt_of_not_le h53⟩


theorem roundRatio_value (n d : Nat) (shift : Int) (hn : 0 < n) :
    (roundRatio n d shift).value =
      ((roundHalfEven (scaled n d (binade n d)).1 (scaled n d (binade n d)).2 : Nat) : ℚ) *
        (2 : ℚ) ^ (binade n d + shift) := by
  have hne : n ≠ 0 := by omega
  unfold roundRatio
  simp only [hne, if_false]
  split
  · rename_i h
    rw [h]
    simp only [JsNumber.value]
    rw [show binade n d + 1 + shift = (binade n d + shift) + 1 by ring,
      zpow_add₀ (by norm_num : (2 : ℚ) ≠ 0)]
    norm_num
    ring
  · rfl

theorem roundRatio_error (n d : Nat) (shift : Int) (hd : 0 < d) :
    |(roundRatio n d shift).value - (n : ℚ) / (d : ℚ) * (2 : ℚ) ^ shift| ≤
      (n : ℚ) / (d : ℚ) * (2 : ℚ) ^ shift / 2 ^ 53 := by
  by_cases hn : n = 0
  · subst hn
    simp [roundRatio, JsNumber.value]
  · have hn0 : 0 < n := by omega
    have hs := scaled_ratio n d (binade n d) hd
    have hsp := scaled_den_pos n d (binade n d) hd
    have hr := roundHalfEven_error (scaled n d (binade n d)).1 (scaled n d (binade n d)).2 hsp
    have hlo := (binade_range n d hn0 hd).1
    rw [hs] at hr
    rw [roundRatio_value n d shift hn0]
    have hp : (0 : ℚ) < (2 : ℚ) ^ (binade n d + shift) := by positivity
    have hq : (n : ℚ) / (d : ℚ) * (2 : ℚ) ^ shift =
        ((n : ℚ) / (d : ℚ) * (2 : ℚ) ^ (-binade n d)) * (2 : ℚ) ^ (binade n d + shift) := by
      rw [mul_assoc, ← zpow_add₀ (by norm_num : (2 : ℚ) ≠ 0)]
      congr 2
      ring
    rw [hq, ← sub_mul, abs_mul, abs_of_pos hp]
    have h1 : |((roundHalfEven (scaled n d (binade n d)).1 (scaled n d (binade n d)).2 : Nat) : ℚ) -
        (n : ℚ) / (d : ℚ) * (2 : ℚ) ^ (-binade n d)| * (2 : ℚ) ^ (binade n d + shift) ≤
        1 / 2 * (2 : ℚ) ^ (binade n d + shift) :=
      mul_le_mul_of_nonneg_right hr hp.le
    have h2 : 1 / 2 * (2 : ℚ) ^ (binade n d + shift) ≤
        (n : ℚ) / (d : ℚ) * (2 : ℚ) ^ (-binade n d) * (2 : ℚ) ^ (binade n d + shift) / 2 ^ 53 := by
      rw [le_div_iff₀ (by positivity)]
      nlinarith
    exact le_trans h1 h2

theorem roundRatio_wf (n d : Nat) (shift : Int) (hn : 0 < n) (hd : 0 < d) :
    2 ^ 52 ≤ (roundRatio n d shift).mant ∧ (roundRatio n d shift).mant < 2 ^ 53 := by
  have hne : n ≠ 0 := by omega
  have hs := scaled_ratio n d (binade n d) hd
  have hsp := scaled_den_pos n d (binade n d) hd
  have hr := roundHalfEven_error (scaled n d (binade n d)).1 (scaled n d (binade n d)).2 hsp
  obtain ⟨hlo, hhi⟩ := binade_range n d hn hd
  rw [hs, abs_le] at hr
  have hm1 : ((2 ^ 52 : Nat) : ℚ) - 1 <
      ((roundHalfEven (scaled n d (binade n d)).1 (scaled n d (binade n d)).2 : Nat) : ℚ) := by
    push_cast; linarith
  have hm2 : ((roundHalfEven (scaled n d (binade n d)).1 (scaled n d (binade n d)).2 : Nat) : ℚ) <
      ((2 ^ 53 : Nat) : ℚ) + 1 := by
    push_cast; linarith
  have hm1n : 2 ^ 52 - 1 <
      roundHalfEven (scaled n d (binade n d)).1 (scaled n d (binade n d)).2 := by
    have : (((2 ^ 52 - 1 : Nat) : ℚ)) = ((2 ^ 52 : Nat) : ℚ) - 1 := by norm_num
    have h := this ▸ hm1
    exact_mod_cast h
  have hm2n : roundHalfEven (scaled n d (binade n d)).1 (scaled n d (binade n d)).2 < 2 ^ 53 + 1 := by
    exact_mod_cast hm2
  unfold roundRatio
  simp only [hne, if_false]
  split
  · simp
  · rename_i h
    simp only
    omega


theorem roundHalfEven_one (n : Nat) : roundHalfEven n 1 = n := by
  simp [roundHalfEven, Nat.mod_one]

theorem binade_nonpos (n : Nat) (hn : 0 < n) (h53 : n < 2 ^ 53) : binade n 1 ≤ 0 := by
  by_contra hpos
  have hlo := (binade_range n 1 hn (by decide)).1
  have he : (1 : Int) ≤ binade n 1 := by omega
  have hz : (2 : ℚ) ^ (-binade n 1) ≤ (2 : ℚ) ^ (-1 : Int) :=
    zpow_le_zpow_right₀ (by norm_num) (by omega)
  have hnq : (n : ℚ) < 2 ^ 53 := by exact_mod_cast h53
  have hn0 : (0 : ℚ) < n := by exact_mod_cast hn
  have h2 : (2 : ℚ) ^ (-1 : Int) = 1 / 2 := by norm_num
  rw [h2] at hz
  simp only [Nat.cast_one, div_one] at hlo
  have hp : (0 : ℚ) < (2 : ℚ) ^ (-binade n 1) := by positivity
  nlinarith

theorem ofNat_value (n : Nat) (h53 : n < 2 ^ 53) : (JsNumber.ofNat n).value = n := by
  by_cases hn : n = 0
  · subst hn
    simp [JsNumber.ofNat, roundRatio, JsNumber.value]
  · have hn0 : 0 < n := by omega
    have he := binade_nonpos n hn0 h53
    obtain ⟨k, hk⟩ := Int.eq_ofNat_of_zero_le (show 0 ≤ -binade n 1 by omega)
    have hs : scaled n 1 (binade n 1) = (n * 2 ^ k, 1) := by
      unfold scaled
      by_cases h0 : 0 ≤ binade n 1
      · have hz : binade n 1 = 0 := by omega
        have hk0 : k = 0 := by omega
        simp [hz, hk0]
      · simp [h0, hk]
    unfold JsNumber.ofNat
    rw [roundRatio_value n 1 0 hn0, hs, roundHalfEven_one]
    have hb : binade n 1 = -(k : Int) := by omega
    rw [hb]
    push_cast
    rw [add_zero, zpow_neg, zpow_natCast, mul_assoc, mul_inv_cancel₀ (by positivity), mul_one]


theorem div_error (x y : JsNumber) (hy : 0 < y.mant) :
    |(x.div y).value - x.value / y.value| ≤ x.value / y.value / 2 ^ 53 := by
  have hym : (y.mant : ℚ) ≠ 0 := by exact_mod_cast hy.ne'
  have hq : x.value / y.value = (x.mant : ℚ) / (y.mant : ℚ) * (2 : ℚ) ^ (x.exp - y.exp) := by
    simp only [JsNumber.value]
    rw [zpow_sub₀ (by norm_num : (2 : ℚ) ≠ 0)]
    have hp : (2 : ℚ) ^ y.exp ≠ 0 := by positivity
    field_simp
  rw [hq]
  exact roundRatio_error x.mant y.mant (x.exp - y.exp) hy

theorem mul_error (x y : JsNumber) :
    |(x.mul y).value - x.value * y.value| ≤ x.value * y.value / 2 ^ 53 := by
  have hq : x.value * y.value =
      ((x.mant * y.mant : Nat) : ℚ) / ((1 : Nat) : ℚ) * (2 : ℚ) ^ (x.exp + y.exp) := by
    simp only [JsNumber.value]
    rw [zpow_add₀ (by norm_num : (2 : ℚ) ≠ 0)]
    push_cast
    ring
  rw [hq]
  exact roundRatio_error (x.mant * y.mant) 1 (x.exp + y.exp) (by decide)

theorem openRate_error (num den : Nat) (hden : 0 < den) (hnum53 : num < 2 ^ 53)
    (hden53 : den < 2 ^ 53) :
    |(openRate num den).value - (num : ℚ) / (den : ℚ) * 100| ≤
      (num : ℚ) / (den : ℚ) * 100 / 2 ^ 51 := by
  have hx := ofNat_value num hnum53
  have hy := ofNat_value den hden53
  have hh : (JsNumber.ofNat 100).value = 100 := by
    have := ofNat_value 100 (by norm_num)
    simpa using this
  have hdq : (0 : ℚ) < den := by exact_mod_cast hden
  have hym : 0 < (JsNumber.ofNat den).mant := by
    rcases Nat.eq_zero_or_pos (JsNumber.ofNat den).mant with h0 | hpos
    · have hv : (JsNumber.ofNat den).value = 0 := by simp [JsNumber.value, h0]
      rw [hy] at hv
      linarith
    · exact hpos
  have h1 := div_error (JsNumber.ofNat num) (JsNumber.ofNat den) hym
  have h2 := mul_error ((JsNumber.ofNat num).div (JsNumber.ofNat den)) (JsNumber.ofNat 100)
  rw [hx, hy] at h1
  rw [hh] at h2
  have hq0 : (0 : ℚ) ≤ (num : ℚ) / (den : ℚ) := by positivity
  have hr : openRate num den =
      ((JsNumber.ofNat num).div (JsNumber.ofNat den)).mul (JsNumber.ofNat 100) := by
    simp [openRate, hden]
  rw [hr]
  rw [abs_le] at h1 h2 ⊢
  obtain ⟨h1a, h1b⟩ := h1
  obtain ⟨h2a, h2b⟩ := h2
  constructor
  · linarith
  · linarith

theorem roundRatio_normal (n d : Nat) (shift : Int) (hd : 0 < d) :
    roundRatio n d shift = ⟨0, 0⟩ ∨
      (2 ^ 52 ≤ (roundRatio n d shift).mant ∧ (roundRatio n d shift).mant < 2 ^ 53) := by
  by_cases hn : n = 0
  · left
    simp [roundRatio, hn]
  · right
    exact roundRatio_wf n d shift (by omega) hd

theorem value_nonneg (x : JsNumber) : 0 ≤ x.value := by
  unfold JsNumber.value
  positivity

theorem openRate_zero_den (num : Nat) : openRate num 0 = ⟨0, 0⟩ := by
  simp [openRate, JsNumber.ofNat, roundRatio]

theorem openRate_pos_den (num den : Nat) (hden : 0 < den) :
    openRate num den =
      ((JsNumber.ofNat num).div (JsNumber.ofNat den)).mul (JsNumber.ofNat 100) := by
  simp [openRate, hden]

theorem openRate_normal (num den : Nat) :
    openRate num den = ⟨0, 0⟩ ∨
      (2 ^ 52 ≤ (openRate num den).mant ∧ (openRate num den).mant < 2 ^ 53) := by
  by_cases hden : 0 < den
  · rw [openRate_pos_den num den hden]
    exact roundRatio_normal _ 1 _ (by decide)
  · left
    have h0 : den = 0 := by omega
    rw [h0]
    exact openRate_zero_den num

set_option maxRecDepth 100000 in
theorem openRate_1_4 : openRate 1 4 = ⟨7036874417766400, -48⟩ := by
  decide

set_option maxRecDepth 100000 in
theorem toFixed2_openRate_1_4 : toFixed2 (openRate 1 4) = "25.00" := by
  decide

theorem toFixed2_zero : toFixed2 ⟨0, 0⟩ = "0.00" := by
  decide

set_option maxRecDepth 100000 in
theorem openRate_23_160 :
    openRate 23 160 = ⟨8092405580431359, -49⟩ ∧ toFixed2 (openRate 23 160) = "14.37" := by
  decide

theorem value_25 : (JsNumber.mk 7036874417766400 (-48)).value = 25 := by
  unfold JsNumber.value
  norm_num

/-- C9: every open rate the handlers compute (the `openRate` of `GET /stats`
from openedEmails and totalEmails, and that of each variant of test-results from
openCount and sentCount) is 0 when the denominator is 0 and, when it is
positive, the double product by 100 of the double quotient of the two counts: a
finite, non-negative Number within a relative 2^-51 of the exact percentage,
for counts below 2^53. A store without records gives the rate 0, sent as
`0.00%`, and a store of four records with one opened gives 25, sent as
`25.00%`. -/
theorem open_rate_rule (num den : Nat) (db : Db) (v : Version) (tests : List ABTest)
    (hden : 0 < den) (hnum53 : num < 2 ^ 53) (hden53 : den < 2 ^ 53) :
    openRate num 0 = ⟨0, 0⟩ ∧
    (openRate num 0).value = 0 ∧
    openRate num den =
      ((JsNumber.ofNat num).div (JsNumber.ofNat den)).mul (JsNumber.ofNat 100) ∧
    |(openRate num den).value - (num : ℚ) / (den : ℚ) * 100| ≤
      (num : ℚ) / (den : ℚ) * 100 / 2 ^ 51 ∧
    0 ≤ (openRate num den).value ∧
    (openRate num den = ⟨0, 0⟩ ∨
      (2 ^ 52 ≤ (openRate num den).mant ∧ (openRate num den).mant < 2 ^ 53)) ∧
    globalOpenRate db = openRate (countOpened db.emails) (countDocuments db.emails) ∧
    statsHandler true true db =
      .json 200 ⟨countDocuments db.emails, countOpened db.emails,
        toFixed2 (openRate (countOpened db.emails) (countDocuments db.emails)) ++ "%"⟩ ∧
    (variantResult v).openRate = openRate v.openCount v.sentCount ∧
    globalOpenRate ⟨[], tests⟩ = ⟨0, 0⟩ ∧
    statsHandler true true ⟨[], tests⟩ = .json 200 ⟨0, 0, "0.00%"⟩ ∧
    (globalOpenRate fourSent).value = 25 ∧
    statsHandler true true fourSent = .json 200 ⟨4, 1, "25.00%"⟩ := by
  have h0 : globalOpenRate ⟨[], tests⟩ = ⟨0, 0⟩ := by
    simp only [globalOpenRate, countDocuments, List.length_nil]
    exact openRate_zero_den _
  have hc : countDocuments fourSent.emails = 4 := by decide
  have ho : countOpened fourSent.emails = 1 := by decide
  have h25 : globalOpenRate fourSent = openRate 1 4 := by
    rw [globalOpenRate, hc, ho]
  refine ⟨openRate_zero_den num, ?_, openRate_pos_den num den hden,
    openRate_error num den hden hnum53 hden53, value_nonneg _, openRate_normal num den,
    rfl, rfl, rfl, h0, ?_, ?_, ?_⟩
  · rw [openRate_zero_den]
    simp [JsNumber.value]
  · simp only [statsHandler, Bool.and_self, if_true, h0, toFixed2_zero]
    rfl
  · rw [h25, openRate_1_4]
    exact value_25
  · simp only [statsHandler, Bool.and_self, if_true, h25, toFixed2_openRate_1_4, hc, ho]
    rfl

/-- C9 for 23 opened of 160. -/
theorem open_rate_rule_witness :
    0 < 160 ∧ 23 < 2 ^ 53 ∧ 160 < 2 ^ 53 ∧
    |(openRate 23 160).value - (23 : ℚ) / (160 : ℚ) * 100| ≤
      (23 : ℚ) / (160 : ℚ) * 100 / 2 ^ 51 ∧
    (globalOpenRate fourSent).value = 25 :=
  have h := open_rate_rule 23 160 fourSent launchTest.versionA [] (by decide) (by norm_num)
    (by norm_num)
  ⟨by decide, by norm_num, by norm_num, by simpa using h.2.2.2.1, h.2.2.2.2.2.2.2.2.2.2.2.1⟩

/-! ## Opens and experiment results -/

/-- C5 fails on the code: create-test itself answers 500 and stores nothing;
and for a test seeded in the collection (one prospect, assigned A), after
send-test the delivery record exists but carries no token, and a pixel request,
here for the token `undefined`, changes nothing: the test results show
openCount 0 for variant A, to which the record was sent, as for B. -/
theorem experiment_opens_not_counted :
    createTestHandler (.ok ⟨"g", "b", "s"⟩) (.ok ⟨"g", "b", "s"⟩) lowThenHigh true 1 50
        ⟨[], []⟩ (launchRequest ["p1@x.org"]) =
      (⟨[], []⟩, .error 500 "Failed to create A/B test") ∧
    seededAndSent.emails.map (fun e => (e.recipient, e.trackingId)) = [("p1@x.org", none)] ∧
    (testResultsHandler true (pixelHandler true 300 seededAndSent "undefined").1 1).2 =
      .json 200 ⟨"launch", ⟨1, 0, ⟨0, 0⟩⟩, ⟨0, 0, ⟨0, 0⟩⟩⟩ ∧
    (pixelHandler true 300 seededAndSent "undefined").1 = seededAndSent :=
  ⟨createTestHandler_rejected _ _ _ _ _ _ _ _, by decide, by decide, by decide⟩

/-! ## Formatting generated content -/

theorem splitParagraphs_ne_nil (cs : List Char) : splitParagraphs cs ≠ [] := by
  induction cs using splitParagraphs.induct with
  | case1 => simp [splitParagraphs]
  | case2 c => simp [splitParagraphs]
  | case3 c d rest h _ => simp [splitParagraphs, h]
  | case4 c d rest h hs _ => simp [splitParagraphs, h, hs]
  | case5 c d rest h p ps hs _ => simp [splitParagraphs, h, hs]

theorem joinParagraphs_cons (p : List Char) (ps : List (List Char)) (h : ps ≠ []) :
    joinParagraphs (p :: ps) = p ++ '\n' :: '\n' :: joinParagraphs ps := by
  cases ps with
  | nil => exact absurd rfl h
  | cons q rest => rfl

theorem joinParagraphs_cons_cons (c : Char) (p : List Char) (ps : List (List Char)) :
    joinParagraphs ((c :: p) :: ps) = c :: joinParagraphs (p :: ps) := by
  cases ps with
  | nil => rfl
  | cons q rest => rfl

theorem joinParagraphs_concat (ps : List (List Char)) (b : List Char) (h : ps ≠ []) :
    joinParagraphs (ps ++ [b]) = joinParagraphs ps ++ '\n' :: '\n' :: b := by
  induction ps with
  | nil => exact absurd rfl h
  | cons p rest ih =>
    cases rest with
    | nil => rfl
    | cons q rest2 =>
      have ih1 := ih (by simp)
      simp only [List.cons_append] at ih1 ⊢
      rw [joinParagraphs_cons p _ (by simp), ih1, joinParagraphs_cons p _ (by simp)]
      simp

theorem joinParagraphs_splitParagraphs (cs : List Char) :
    joinParagraphs (splitParagraphs cs) = cs := by
  induction cs using splitParagraphs.induct with
  | case1 => rfl
  | case2 c => rfl
  | case3 c d rest h ih =>
    simp only [splitParagraphs, h, and_self, if_true]
    rw [joinParagraphs_cons [] _ (splitParagraphs_ne_nil rest), ih]
    rfl
  | case4 c d rest h hs _ => exact absurd hs (splitParagraphs_ne_nil (d :: rest))
  | case5 c d rest h p ps hs ih =>
    simp only [splitParagraphs, h, if_false, hs]
    rw [joinParagraphs_cons_cons, ← hs, ih]

theorem splitParagraphs_head (d : Char) (rest p : List Char) (ps : List (List Char))
    (h : splitParagraphs (d :: rest) = p :: ps) : p = [] ∨ ∃ t, p = d :: t := by
  cases rest with
  | nil =>
    simp only [splitParagraphs, List.cons.injEq] at h
    exact Or.inr ⟨[], h.1.symm⟩
  | cons e r =>
    simp only [splitParagraphs] at h
    split at h
    · simp only [List.cons.injEq] at h
      exact Or.inl h.1.symm
    · split at h
      · simp only [List.cons.injEq] at h
        exact Or.inr ⟨[], h.1.symm⟩
      · simp only [List.cons.injEq] at h
        exact Or.inr ⟨_, h.1.symm⟩

theorem splitParagraphs_no_separator (cs : List Char) :
    ∀ p ∈ splitParagraphs cs, ¬ ['\n', '\n'] <:+: p := by
  induction cs using splitParagraphs.induct with
  | case1 =>
    intro p hp hin
    simp only [splitParagraphs, List.mem_singleton] at hp
    subst hp
    simpa using hin.length_le
  | case2 c =>
    intro p hp hin
    simp only [splitParagraphs, List.mem_singleton] at hp
    subst hp
    simpa using hin.length_le
  | case3 c d rest h ih =>
    intro p hp hin
    simp only [splitParagraphs, h, and_self, if_true, List.mem_cons] at hp
    rcases hp with rfl | hp
    · simpa using hin.length_le
    · exact ih p hp hin
  | case4 c d rest h hs _ => exact absurd hs (splitParagraphs_ne_nil (d :: rest))
  | case5 c d rest h p ps hs ih =>
    intro q hq hin
    simp only [splitParagraphs, h, if_false, hs, List.mem_cons] at hq
    rw [hs] at ih
    rcases hq with rfl | hq
    · rcases List.infix_cons_iff.mp hin with hpre | hinp
      · obtain ⟨hc, hpre1⟩ := List.cons_prefix_cons.mp hpre
        rcases splitParagraphs_head d rest p ps hs with hp | ⟨t, hp⟩
        · subst hp
          simpa using hpre1.length_le
        · subst hp
          obtain ⟨hd, _⟩ := List.cons_prefix_cons.mp hpre1
          exact h ⟨hc.symm, hd.symm⟩
      · exact ih p (List.mem_cons_self p ps) hinp
    · exact ih q (List.mem_cons_of_mem p hq) hin

theorem sliceInner_cons_concat (a b : List Char) (mid : List (List Char)) :
    sliceInner (a :: (mid ++ [b])) = mid := by
  simp [sliceInner]

theorem formatEmail_of_split (content : String) (a b : List Char) (mid : List (List Char))
    (h : splitParagraphs content.toList = a :: (mid ++ [b])) :
    formatEmail content = ⟨String.mk a, String.mk (joinParagraphs mid), String.mk b⟩ := by
  simp only [formatEmail, h, sliceInner_cons_concat, List.headD_cons]
  congr 2
  rw [← List.cons_append, List.getLastD_concat]

theorem formatEmail_of_single (content : String) (a : List Char)
    (h : splitParagraphs content.toList = [a]) :
    formatEmail content = ⟨String.mk a, "", String.mk a⟩ := by
  simp only [formatEmail, h]
  rfl

theorem bulkContent_mk (g b s : List Char) :
    bulkContent ⟨String.mk g, String.mk b, String.mk s⟩ =
      String.mk (g ++ '\n' :: '\n' :: (b ++ '\n' :: '\n' :: s)) := by
  apply String.ext
  simp [bulkContent, String.data_append]

theorem string_ne_of_length (x y : List Char) (h : x.length ≠ y.length) :
    String.mk x ≠ String.mk y := by
  intro hxy
  exact h (congrArg List.length (congrArg String.data hxy))

/-- C11: `formatEmail` splits the content on `\n\n` into paragraphs, none of
them containing `\n\n`, whose join with `\n\n` is the content; greeting is the first paragraph, signature the last
and body the join of the paragraphs strictly between them. Re-joining greeting,
body and signature with `\n\n`, as preview-bulk and generate-bulk do, gives the
content back exactly when there are at least three paragraphs; with one
paragraph greeting and signature are both the whole content and body is empty,
and with two paragraphs body is empty. -/
theorem formatEmail_rejoin (content : String) :
    joinParagraphs (splitParagraphs content.toList) = content.toList ∧
    (∀ p ∈ splitParagraphs content.toList, ¬ ['\n', '\n'] <:+: p) ∧
    1 ≤ (splitParagraphs content.toList).length ∧
    (∀ (a b : List Char) (mid : List (List Char)),
      splitParagraphs content.toList = a :: (mid ++ [b]) →
      formatEmail content = ⟨String.mk a, String.mk (joinParagraphs mid), String.mk b⟩) ∧
    (bulkContent (formatEmail content) = content ↔
      3 ≤ (splitParagraphs content.toList).length) ∧
    ((splitParagraphs content.toList).length = 1 →
      (formatEmail content).greeting = content ∧ (formatEmail content).signature = content ∧
      (formatEmail content).body = "") ∧
    ((splitParagraphs content.toList).length = 2 → (formatEmail content).body = "") := by
  have hjoin := joinParagraphs_splitParagraphs content.toList
  have hcontent : content = String.mk content.toList := rfl
  refine ⟨hjoin, splitParagraphs_no_separator content.toList, ?_,
    formatEmail_of_split content, ?_⟩
  · cases hs : splitParagraphs content.toList with
    | nil => exact absurd hs (splitParagraphs_ne_nil _)
    | cons a rest => simp
  cases hs : splitParagraphs content.toList with
  | nil => exact absurd hs (splitParagraphs_ne_nil _)
  | cons a rest =>
    rw [hs] at hjoin
    rcases List.eq_nil_or_concat rest with hrest | ⟨mid, b, hrest⟩
    · subst hrest
      have ha : content.toList = a := hjoin.symm
      have hfmt := formatEmail_of_single content a hs
      have hmk : String.mk a = content := by rw [← ha]; exact hcontent.symm
      refine ⟨?_, ?_, ?_⟩
      · rw [hfmt]
        constructor
        · intro h
          have hb : bulkContent ⟨String.mk a, "", String.mk a⟩ =
              String.mk (a ++ '\n' :: '\n' :: ([] ++ '\n' :: '\n' :: a)) := bulkContent_mk a [] a
          rw [hb, ← hmk] at h
          exact absurd h (string_ne_of_length _ _ (by simp))
        · intro h
          simp at h
      · intro _
        rw [hfmt]
        exact ⟨hmk, hmk, rfl⟩
      · intro h
        simp at h
    · rw [List.concat_eq_append] at hrest
      subst hrest
      have hfmt := formatEmail_of_split content a b mid hs
      by_cases hmid : mid = []
      · subst hmid
        have hc : content.toList = a ++ '\n' :: '\n' :: b := hjoin.symm
        refine ⟨?_, ?_, ?_⟩
        · rw [hfmt]
          constructor
          · intro h
            have hb : bulkContent ⟨String.mk a, String.mk (joinParagraphs []), String.mk b⟩ =
                String.mk (a ++ '\n' :: '\n' :: (joinParagraphs [] ++ '\n' :: '\n' :: b)) :=
              bulkContent_mk a _ b
            rw [hb, hcontent, hc] at h
            exact absurd h (string_ne_of_length _ _ (by simp [joinParagraphs]; omega))
          · intro h
            simp at h
        · intro h
          simp at h
        · intro _
          rw [hfmt]
          rfl
      · have hc : content.toList =
            a ++ '\n' :: '\n' :: (joinParagraphs mid ++ '\n' :: '\n' :: b) := by
          rw [← hjoin, joinParagraphs_cons a _ (by simp), joinParagraphs_concat mid b hmid]
        have hlen : 1 ≤ mid.length := by
          cases mid with
          | nil => exact absurd rfl hmid
          | cons m ms => simp
        refine ⟨?_, ?_, ?_⟩
        · rw [hfmt, bulkContent_mk]
          constructor
          · intro _
            simp only [List.length_cons, List.length_append, List.length_nil]
            omega
          · intro _
            rw [hcontent, hc]
        · intro h
          simp only [List.length_cons, List.length_append, List.length_nil] at h
          omega
        · intro h
          simp only [List.length_cons, List.length_append, List.length_nil] at h
          omega

/-- C11 on a content of three paragraphs. -/
theorem formatEmail_rejoin_witness :
    3 ≤ (splitParagraphs "Hi Ann,\n\nOur offer.\n\nBest, Bo".toList).length ∧
    formatEmail "Hi Ann,\n\nOur offer.\n\nBest, Bo" = ⟨"Hi Ann,", "Our offer.", "Best, Bo"⟩ ∧
    bulkContent (formatEmail "Hi Ann,\n\nOur offer.\n\nBest, Bo") =
      "Hi Ann,\n\nOur offer.\n\nBest, Bo" :=
  ⟨by decide, by decide,
    (formatEmail_rejoin "Hi Ann,\n\nOur offer.\n\nBest, Bo").2.2.2.2.1.mpr (by decide)⟩

end SalesEmail
